import Mathlib

/-!
Verification of the simulation core of `game.py` (single-lane auto-scrolling
platform jumper).  The Python source is shallowly embedded: Python `int`
values become `ℤ`, Python `float` values become `ℚ` (the arithmetic the
claims exercise is exact in both representations), `random.randint` is
modelled by an explicit stream of naturals reduced into the requested
interval, and the HMAC-SHA256 signature of the score store is abstracted as
a parameter `sig : ℤ → σ` (its only properties used by the code are
determinism and equality comparison).
-/

namespace Scroller

/-! ### Constants (from the top of `game.py`) -/

def SCREEN_WIDTH : ℤ := 800
def SCREEN_HEIGHT : ℤ := 400
def PLAYER_WIDTH : ℤ := 40
def PLAYER_HEIGHT : ℤ := 40
def PLAYER_X : ℤ := 100
def GRAVITY : ℚ := 0.8
def JUMP_STRENGTH : ℤ := -15
def GROUND_Y : ℤ := SCREEN_HEIGHT - 50
def BASE_SCROLL_SPEED : ℤ := 4
def MAX_SCROLL_SPEED : ℤ := 12
def SPEED_INCREMENT : ℚ := 0.05
def MIN_OBSTACLE_WIDTH : ℤ := 60
def MAX_OBSTACLE_WIDTH : ℤ := 150
def OBSTACLE_THICKNESS : ℤ := 20
def MIN_GAP : ℤ := 60
def MAX_GAP : ℤ := 130
def MIN_JUMP_FRAMES : ℤ := 18
def GAP_BUFFER : ℤ := 20
def MAX_JUMP_HEIGHT : ℤ := 120
def MAX_HEIGHT_DIFF : ℤ := 100
def MIN_PLATFORM_Y : ℤ := 50
def MAX_PLATFORM_Y : ℤ := GROUND_Y - 20
def INITIAL_OBSTACLE_COUNT : ℕ := 4
def INITIAL_OBSTACLE_OFFSET_MIN : ℤ := 100
def INITIAL_OBSTACLE_OFFSET_MAX : ℤ := 300
def LANDING_TOLERANCE : ℤ := 5
def JUMP_CUT_MULTIPLIER : ℚ := 0.5

/-! ### Randomness

`random.randint(a, b)` returns a uniform integer in the inclusive interval
`[a, b]`.  We model the random source as an infinite stream of naturals
with a position counter; `randint` consumes the next stream value and
reduces it into the interval.  Every theorem quantifies over the stream, so
the results hold for every possible sequence of random draws. -/

structure RNG where
  seq : Nat → Nat
  pos : Nat

def RNG.next (r : RNG) : Nat × RNG := (r.seq r.pos, ⟨r.seq, r.pos + 1⟩)

def randint (a b : ℤ) (r : RNG) : ℤ × RNG :=
  let n := r.next
  (a + (n.1 : ℤ) % (b - a + 1), n.2)

/-- Python `int()` applied to a float: truncation toward zero. -/
def pyInt (q : ℚ) : ℤ := if q < 0 then ⌈q⌉ else ⌊q⌋

/-! ### Data model -/

/-- `Obstacle` dataclass: a floating platform. -/
structure Obstacle where
  x : ℚ
  y : ℚ
  width : ℚ
  height : ℚ
  scored : Bool
deriving DecidableEq, Repr

/-- `Debris` dataclass: one particle of the death explosion. -/
structure Debris where
  x : ℚ
  y : ℚ
  vel_x : ℚ
  vel_y : ℚ
  size : ℤ
  bounces : ℤ
deriving DecidableEq, Repr

/-- `GameState` dataclass: all mutable game state. -/
structure GameState where
  player_y : ℚ
  player_velocity_y : ℚ
  is_jumping : Bool
  jump_held : Bool
  has_jumped : Bool
  game_over : Bool
  score : ℤ
  high_score : ℤ
  high_score_beaten : Bool
  jump_buffered : Bool
  obstacles : List Obstacle
  debris : List Debris
deriving DecidableEq, Repr

/-! ### Score store (`_compute_score_signature`, `save_high_score`,
`load_high_score`)

The keyed hash `hmac.new(HIGH_SCORE_SECRET, str(score).encode(),
sha256).hexdigest()` is abstracted as a function of the message string;
the code uses it only deterministically and compares signatures with
`hmac.compare_digest`, whose result on strings is equality (a non-string
`signature` field raises `TypeError`, which the source catches and turns
into 0, so within the model the signature slot carries the abstract type
`σ`).  The persisted JSON file is modelled at two levels.

The faithful level (`JsonScoreRecord` below): `json.load` puts an
arbitrary JSON value in the `high_score` field, and the signature message
is Python's `str()` of that value.  The value domain is modelled by the
two JSON kinds whose `str()` images can coincide — integers and strings
(`str(42)` and `str("42")` are both `"42"`); the remaining kinds (floats,
booleans, null, containers) stringify with a decimal point, letters or
brackets and never collide with an integer's digits, so they behave like
any other wrong-string value.

The ℤ-typed level (`ScoreRecord` here): the restriction of the faithful
store to integer-valued records (`load_high_score_json_int` below proves
it is exactly that restriction).  `reset_game` stores the loaded value in
the integer `high_score` state field, so the game-state theorems use this
level. -/

structure ScoreRecord (σ : Type) where
  high_score : ℤ
  signature : σ
deriving DecidableEq

/-- `save_high_score`: the record written to disk (the boolean I/O success
result is outside the state model). -/
def save_high_score {σ : Type} (sig : ℤ → σ) (score : ℤ) : ScoreRecord σ :=
  ⟨score, sig score⟩

/-- `load_high_score`: 0 when the file is absent; otherwise the stored
score iff the recomputed signature matches the stored one. -/
def load_high_score {σ : Type} [DecidableEq σ] (sig : ℤ → σ)
    (file : Option (ScoreRecord σ)) : ℤ :=
  match file with
  | none => 0
  | some data =>
      if data.signature = sig data.high_score then data.high_score else 0

/-- JSON value stored in the persisted `high_score` field: an integer or a
string (see the section comment for why these two kinds suffice). -/
inductive JVal where
  | jint (n : ℤ)
  | jstr (t : String)
deriving DecidableEq

/-- Decimal digit run of a natural number, most significant first, as
Python's `str()` renders it (`"0"` for zero, no leading zeros
otherwise). -/
def natChars (m : ℕ) : List Char :=
  if m = 0 then ['0'] else ((Nat.digits 10 m).map Nat.digitChar).reverse

/-- Python's `str()` of an integer: optional minus sign, then decimal
digits. -/
def pyIntStr (n : ℤ) : String :=
  if n < 0 then String.mk ('-' :: natChars n.natAbs) else String.mk (natChars n.toNat)

/-- Python's `str()` on the modelled JSON values: identity on strings,
decimal rendering on integers. -/
def pyStr : JVal → String
  | JVal.jint n => pyIntStr n
  | JVal.jstr t => t

/-- Numeric value of a decimal digit character (inverse of
`Nat.digitChar` below 10; used only to prove `pyIntStr` injective). -/
def charDigit (c : Char) : ℕ := c.toNat - 48

/-- Parse a big-endian decimal digit run (left inverse of `natChars`). -/
def parseNatChars (cs : List Char) : ℕ :=
  Nat.ofDigits 10 ((cs.map charDigit).reverse)

/-- Parse an optional minus sign and digit run (left inverse of
`pyIntStr`). -/
def parseIntChars : List Char → ℤ
  | '-' :: cs => -(parseNatChars cs : ℤ)
  | cs => (parseNatChars cs : ℤ)

/-- The persisted record as `json.load` yields it: an arbitrary JSON value
in `high_score`, the signature in `signature`. -/
structure JsonScoreRecord (σ : Type) where
  high_score : JVal
  signature : σ
deriving DecidableEq

/-- `save_high_score` at the JSON level: the written record holds the
integer score and the keyed hash of its `str()`. -/
def save_high_score_json {σ : Type} (hmac : String → σ) (score : ℤ) :
    JsonScoreRecord σ :=
  ⟨JVal.jint score, hmac (pyStr (JVal.jint score))⟩

/-- `load_high_score` at the JSON level: `_compute_score_signature` hashes
`str()` of whatever value the `high_score` field holds, and on a match the
stored value itself is returned — whatever its JSON kind. -/
def load_high_score_json {σ : Type} [DecidableEq σ] (hmac : String → σ)
    (file : Option (JsonScoreRecord σ)) : JVal :=
  match file with
  | none => JVal.jint 0
  | some data =>
      if data.signature = hmac (pyStr data.high_score) then data.high_score
      else JVal.jint 0

/-! ### Speed and gap formulas -/

/-- `get_scroll_speed`: base speed plus per-point increment, capped. -/
def get_scroll_speed (score : ℤ) : ℚ :=
  min ((BASE_SCROLL_SPEED : ℚ) + (score : ℚ) * SPEED_INCREMENT) (MAX_SCROLL_SPEED : ℚ)

/-- `get_min_gap`: minimum horizontal gap scaled with scroll speed.
The source applies Python `int()` (truncation) to the float formula. -/
def get_min_gap (speed : ℚ) : ℤ :=
  max MIN_GAP (pyInt (speed * (MIN_JUMP_FRAMES : ℚ) - (MIN_OBSTACLE_WIDTH : ℚ) + (GAP_BUFFER : ℚ)))

/-! ### Collision (`check_obstacle_collision`) -/

/-- `check_obstacle_collision`: swept landing test against one obstacle. -/
def check_obstacle_collision (player_x player_y prev_player_y : ℚ)
    (obstacle : Obstacle) : Bool :=
  let player_bottom := player_y + (PLAYER_HEIGHT : ℚ)
  let prev_player_bottom := prev_player_y + (PLAYER_HEIGHT : ℚ)
  let player_right := player_x + (PLAYER_WIDTH : ℚ)
  let player_left := player_x
  let obs_top := obstacle.y
  let obs_bottom := obstacle.y + obstacle.height
  let obs_left := obstacle.x
  let obs_right := obstacle.x + obstacle.width
  if player_right > obs_left ∧ player_left < obs_right then
    if prev_player_bottom ≤ obs_top ∧ player_bottom ≥ obs_top then
      true
    else if player_bottom ≥ obs_top ∧ player_bottom ≤ obs_bottom + (LANDING_TOLERANCE : ℚ) then
      true
    else
      false
  else
    false

/-! ### Obstacle generation (`generate_obstacle`) -/

/-- `generate_obstacle(last_obstacle, from_ground, speed)`.  The three
branches mirror the source: chained (a previous obstacle and not
`from_ground`), from-ground, and no-context.  Random draws happen in source
order: width, then horizontal placement, then vertical placement. -/
def generate_obstacle (last_obstacle : Option Obstacle) (from_ground : Bool)
    (speed : ℚ) (r : RNG) : Obstacle × RNG :=
  let w := randint MIN_OBSTACLE_WIDTH MAX_OBSTACLE_WIDTH r
  let width := w.1
  let min_gap := get_min_gap speed
  let max_gap := max min_gap MAX_GAP
  match last_obstacle, from_ground with
  | some last, false =>
      let g := randint min_gap max_gap w.2
      let x := last.x + last.width + (g.1 : ℚ)
      let last_top := last.y
      let min_y : ℚ := max (MIN_PLATFORM_Y : ℚ) (last_top - (MAX_JUMP_HEIGHT : ℚ))
      let max_y : ℚ := min (MAX_PLATFORM_Y : ℚ) (last_top + (MAX_HEIGHT_DIFF : ℚ))
      let b : ℚ × ℚ := if min_y > max_y then (max_y, min_y) else (min_y, max_y)
      let yr := randint (pyInt b.1) (pyInt b.2) g.2
      (⟨x, (yr.1 : ℚ), (width : ℚ), (OBSTACLE_THICKNESS : ℚ), false⟩, yr.2)
  | _, true =>
      let o := randint INITIAL_OBSTACLE_OFFSET_MIN INITIAL_OBSTACLE_OFFSET_MAX w.2
      let x := (SCREEN_WIDTH : ℚ) + (o.1 : ℚ)
      let yr := randint (GROUND_Y - MAX_JUMP_HEIGHT) MAX_PLATFORM_Y o.2
      (⟨x, (yr.1 : ℚ), (width : ℚ), (OBSTACLE_THICKNESS : ℚ), false⟩, yr.2)
  | none, false =>
      let o := randint INITIAL_OBSTACLE_OFFSET_MIN INITIAL_OBSTACLE_OFFSET_MAX w.2
      let x := (SCREEN_WIDTH : ℚ) + (o.1 : ℚ)
      let yr := randint MIN_PLATFORM_Y MAX_PLATFORM_Y o.2
      (⟨x, (yr.1 : ℚ), (width : ℚ), (OBSTACLE_THICKNESS : ℚ), false⟩, yr.2)

/-! ### Obstacle chains and `reset_game` -/

/-- The chain-building loop of `reset_game` (and, tick by tick, of the main
loop's spawn step): repeatedly call `generate_obstacle` on the previous
obstacle at a fixed speed, collecting the results in order. -/
def chainFrom (last : Obstacle) (speed : ℚ) : Nat → RNG → List Obstacle × RNG
  | 0, r => ([], r)
  | n + 1, r =>
      let g := generate_obstacle (some last) false speed r
      let rest := chainFrom g.1 speed n g.2
      (g.1 :: rest.1, rest.2)

/-- An obstacle chain as quantified by the spec: a first obstacle produced
by `generate_obstacle` with no previous obstacle (from ground when
`from_ground`, otherwise the no-context branch), followed by `n` chained
obstacles at the given speed. -/
def obstacleChain (from_ground : Bool) (speed : ℚ) (n : Nat) (r : RNG) :
    List Obstacle × RNG :=
  let f := generate_obstacle none from_ground speed r
  let rest := chainFrom f.1 speed n f.2
  (f.1 :: rest.1, rest.2)

/-- `reset_game`: fresh state with the player on the ground and an initial
chain of one from-ground obstacle plus `INITIAL_OBSTACLE_COUNT` chained
ones.  The default `speed=BASE_SCROLL_SPEED` of `generate_obstacle` is used
throughout; `load_high_score()` reads the persisted file, here passed in
explicitly. -/
def reset_game {σ : Type} [DecidableEq σ] (sig : ℤ → σ)
    (file : Option (ScoreRecord σ)) (r : RNG) : GameState × RNG :=
  let c := obstacleChain true (BASE_SCROLL_SPEED : ℚ) INITIAL_OBSTACLE_COUNT r
  ({ player_y := ((GROUND_Y : ℚ) - (PLAYER_HEIGHT : ℚ))
     player_velocity_y := 0
     is_jumping := false
     jump_held := false
     has_jumped := false
     game_over := false
     score := 0
     high_score := load_high_score sig file
     high_score_beaten := false
     jump_buffered := false
     obstacles := c.1
     debris := [] }, c.2)

/-! ### The per-tick update of the main loop (lines 744-812 of `game.py`)

The body of `while running` is split into the phases the source executes in
order, each a named function.  `generate_debris` calls `random.uniform`,
`math.cos` and `math.sin`; real-valued trigonometry has no executable
rational embedding, so the debris generator is an explicit parameter of the
tick — every theorem below quantifies over it (no claim concerns the
contents of the debris list). -/

def GenDebris : Type := ℚ → ℚ → RNG → List Debris × RNG

/-- `pygame.K_SPACE` keydown handler (lines 716-725): impulse when not
airborne, otherwise buffer the jump. -/
def handleJumpPress (s : GameState) : GameState :=
  if s.game_over then s
  else if s.is_jumping then { s with jump_buffered := true }
  else
    { s with player_velocity_y := (JUMP_STRENGTH : ℚ), is_jumping := true,
             jump_held := true, has_jumped := true }

/-- `pygame.K_SPACE` keyup handler (lines 736-741): release the jump and cut
upward velocity. -/
def handleJumpRelease (s : GameState) : GameState :=
  let s := { s with jump_held := false }
  if s.player_velocity_y < 0 then
    { s with player_velocity_y := s.player_velocity_y * JUMP_CUT_MULTIPLIER }
  else s

/-- Gravity integration (lines 749-750). -/
def integrate (s : GameState) : GameState :=
  { s with player_velocity_y := s.player_velocity_y + GRAVITY,
           player_y := s.player_y + (s.player_velocity_y + GRAVITY) }

/-- Ground-collision check (lines 752-771).  Returns the updated state, the
`on_surface` flag and the random source (consumed by `generate_debris` on
death).  The `save_high_score` call's file write is outside the state
model; its in-memory effects (`high_score`, `high_score_beaten`) are kept. -/
def groundPhase (gd : GenDebris) (s : GameState) (r : RNG) :
    GameState × Bool × RNG :=
  if s.player_y ≥ (GROUND_Y : ℚ) - (PLAYER_HEIGHT : ℚ) then
    let s := { s with player_y := (GROUND_Y : ℚ) - (PLAYER_HEIGHT : ℚ),
                      player_velocity_y := 0, is_jumping := false }
    if s.has_jumped then
      let d := gd (PLAYER_X : ℚ) s.player_y r
      let s := { s with game_over := true, debris := d.1 }
      let s :=
        if s.score > s.high_score then
          { s with high_score := s.score, high_score_beaten := true }
        else s
      (s, true, d.2)
    else (s, true, r)
  else (s, false, r)

/-- The `for obstacle in state.obstacles` landing loop (lines 775-785):
first colliding obstacle snaps the player, is marked scored if new (with a
point awarded), and the loop breaks.  Returns `none` when no obstacle
collides, otherwise the new `player_y`, the updated list and the updated
score. -/
def landLoop (player_x player_y prev_player_y : ℚ) (score : ℤ) :
    List Obstacle → Option (ℚ × List Obstacle × ℤ)
  | [] => none
  | o :: rest =>
      if check_obstacle_collision player_x player_y prev_player_y o then
        if o.scored then some (o.y - (PLAYER_HEIGHT : ℚ), o :: rest, score)
        else some (o.y - (PLAYER_HEIGHT : ℚ), { o with scored := true } :: rest, score + 1)
      else
        match landLoop player_x player_y prev_player_y score rest with
        | some p => some (p.1, o :: p.2.1, p.2.2)
        | none => none

/-- Obstacle-collision phase (lines 773-785), guarded by `not on_surface
and velocity >= 0`. -/
def obstaclePhase (prev_player_y : ℚ) (s : GameState) (on_surface : Bool) :
    GameState × Bool :=
  if on_surface = false ∧ 0 ≤ s.player_velocity_y then
    match landLoop (PLAYER_X : ℚ) s.player_y prev_player_y s.score s.obstacles with
    | some p =>
        ({ s with player_y := p.1, player_velocity_y := 0, is_jumping := false,
                  obstacles := p.2.1, score := p.2.2 }, true)
    | none => (s, on_surface)
  else (s, on_surface)

/-- Buffered-jump phase (lines 787-796): consume the buffer when grounded
this tick, clear it unconditionally. -/
def bufferPhase (s : GameState) (on_surface : Bool) : GameState :=
  if s.jump_buffered then
    let s :=
      if on_surface then
        { s with player_velocity_y := (JUMP_STRENGTH : ℚ), is_jumping := true,
                 jump_held := true, has_jumped := true }
      else s
    { s with jump_buffered := false }
  else s

/-- Scroll phase (lines 798-801): every obstacle moves left by the current
speed. -/
def scrollPhase (speed : ℚ) (s : GameState) : GameState :=
  { s with obstacles := s.obstacles.map (fun o => { o with x := o.x - speed }) }

/-- Prune phase (lines 803-805): drop the front obstacle once fully
off-screen left. -/
def prunePhase (s : GameState) : GameState :=
  match s.obstacles with
  | [] => s
  | o :: rest => if o.x + o.width < 0 then { s with obstacles := rest } else s

/-- Spawn phase (lines 807-812): append a chained obstacle when the last
one has entered the screen. -/
def spawnPhase (speed : ℚ) (s : GameState) (r : RNG) : GameState × RNG :=
  match s.obstacles.getLast? with
  | none => (s, r)
  | some last =>
      if last.x < (SCREEN_WIDTH : ℚ) then
        let g := generate_obstacle (some last) false speed r
        ({ s with obstacles := s.obstacles ++ [g.1] }, g.2)
      else (s, r)

/-- One simulation tick: the `if not state.game_over:` block of the main
loop (lines 744-812), phases in source order. -/
def physicsTick (gd : GenDebris) (s : GameState) (r : RNG) : GameState × RNG :=
  let prev_player_y := s.player_y
  let s1 := integrate s
  let g := groundPhase gd s1 r
  let o := obstaclePhase prev_player_y g.1 g.2.1
  let s4 := bufferPhase o.1 o.2
  let current_speed := get_scroll_speed s4.score
  let s5 := scrollPhase current_speed s4
  let s6 := prunePhase s5
  spawnPhase current_speed s6 g.2.2

/-- The player-related prefix of a tick (gravity, ground check, obstacle
landing, buffered jump) — the phases of `physicsTick` before the world
scroll/prune/spawn phases, which only touch the obstacle list. -/
def playerPhases (gd : GenDebris) (s : GameState) (r : RNG) : GameState :=
  let s1 := integrate s
  let g := groundPhase gd s1 r
  let o := obstaclePhase s.player_y g.1 g.2.1
  bufferPhase o.1 o.2

/-! ### Specification-side definitions for the claims -/

/-- The consecutive-pair invariant of generated obstacle chains: gap within
`[get_min_gap speed, max (get_min_gap speed) MAX_GAP]`, vertical rise at
most `MAX_JUMP_HEIGHT`, vertical drop at most `MAX_HEIGHT_DIFF`. -/
def reachableStep (speed : ℚ) (o o2 : Obstacle) : Prop :=
  ((get_min_gap speed : ℤ) : ℚ) ≤ o2.x - (o.x + o.width) ∧
  o2.x - (o.x + o.width) ≤ ((max (get_min_gap speed) MAX_GAP : ℤ) : ℚ) ∧
  o.y - o2.y ≤ (MAX_JUMP_HEIGHT : ℚ) ∧
  o2.y - o.y ≤ (MAX_HEIGHT_DIFF : ℚ)

/-- The ground-clamp condition of a tick: the integrated position reaches
the floor (`player_y` grows downward). -/
def grounded (s : GameState) : Prop :=
  s.player_y + (s.player_velocity_y + GRAVITY) ≥ (GROUND_Y : ℚ) - (PLAYER_HEIGHT : ℚ)

/-- The obstacle-landing condition of a tick: not clamped to the ground,
falling (non-negative integrated velocity), and some obstacle passes the
swept collision test at the integrated position. -/
def landed (s : GameState) : Prop :=
  0 ≤ s.player_velocity_y + GRAVITY ∧
  (landLoop (PLAYER_X : ℚ) (s.player_y + (s.player_velocity_y + GRAVITY))
    s.player_y s.score s.obstacles).isSome

/-- All-zero random stream, for concrete witnesses. -/
def rngZero : RNG := ⟨fun _ => 0, 0⟩

/-- Random stream whose third draw is 50, for the C9 counterexample (it
makes the chained branch pick the top of the swapped interval). -/
def rngC9 : RNG := ⟨fun i => if i = 2 then 50 else 0, 0⟩

/-- Trivial debris generator, for concrete witnesses (theorems about the
tick hold for every debris generator). -/
def gdZero : GenDebris := fun _ _ r => ([], r)

/-- Concrete state standing on the ground with `has_jumped` set, for the C5
witness. -/
def stateHasJumped : GameState :=
  ⟨310, 0, false, false, true, false, 0, 0, false, false, [], []⟩

/-- Concrete airborne state just above a platform with a buffered jump, for
the C6 witness. -/
def stateBuffered : GameState :=
  ⟨165, 0, true, false, true, false, 0, 0, false, true, [⟨80, 200, 80, 20, false⟩], []⟩

/-! ### Helper lemmas -/

theorem randint_bounds (a b : ℤ) (r : RNG) (h : a ≤ b) :
    a ≤ (randint a b r).1 ∧ (randint a b r).1 ≤ b := by
  unfold randint
  have hpos : (0 : ℤ) < b - a + 1 := by omega
  have h0 : 0 ≤ ((r.next.1 : ℤ) % (b - a + 1)) := Int.emod_nonneg _ (by omega)
  have h1 : ((r.next.1 : ℤ) % (b - a + 1)) < b - a + 1 := Int.emod_lt_of_pos _ hpos
  constructor <;> simp only <;> omega

theorem pyInt_intCast (k : ℤ) : pyInt (k : ℚ) = k := by
  unfold pyInt
  split <;> simp

theorem pyInt_of_nonneg (q : ℚ) (h : 0 ≤ q) : pyInt q = ⌊q⌋ := by
  unfold pyInt
  rw [if_neg (not_lt.mpr h)]

theorem pyInt_mono {p q : ℚ} (h : p ≤ q) : pyInt p ≤ pyInt q := by
  unfold pyInt
  rcases lt_or_le p 0 with hp | hp <;> rcases lt_or_le q 0 with hq | hq
  · rw [if_pos hp, if_pos hq]
    exact Int.ceil_le_ceil h
  · rw [if_pos hp, if_neg (not_lt.mpr hq)]
    have h1 : ⌈p⌉ ≤ 0 := by
      have := Int.ceil_le_ceil (α := ℚ) (le_of_lt hp)
      simpa using this
    have h2 : 0 ≤ ⌊q⌋ := Int.floor_nonneg.mpr hq
    omega
  · exact absurd (lt_of_le_of_lt h hq) (not_lt.mpr hp)
  · rw [if_neg (not_lt.mpr hp), if_neg (not_lt.mpr hq)]
    exact Int.floor_le_floor h

/-- `check_obstacle_collision` unfolded to the logical landing condition
(shared by the collision claims). -/
theorem check_obstacle_collision_iff (px py ppy : ℚ) (o : Obstacle) :
    check_obstacle_collision px py ppy o = true ↔
      (o.x < px + (PLAYER_WIDTH : ℚ) ∧ px < o.x + o.width) ∧
      ((ppy + (PLAYER_HEIGHT : ℚ) ≤ o.y ∧ o.y ≤ py + (PLAYER_HEIGHT : ℚ)) ∨
       (o.y ≤ py + (PLAYER_HEIGHT : ℚ) ∧
        py + (PLAYER_HEIGHT : ℚ) ≤ o.y + o.height + (LANDING_TOLERANCE : ℚ))) := by
  simp only [check_obstacle_collision]
  split_ifs with h1 h2 h3
  · exact iff_of_true rfl ⟨⟨h1.1, h1.2⟩, Or.inl ⟨h2.1, h2.2⟩⟩
  · exact iff_of_true rfl ⟨⟨h1.1, h1.2⟩, Or.inr ⟨h3.1, h3.2⟩⟩
  · refine iff_of_false (by simp) ?_
    rintro ⟨-, hv | hv⟩
    · exact h2 ⟨hv.1, hv.2⟩
    · exact h3 ⟨hv.1, hv.2⟩
  · refine iff_of_false (by simp) ?_
    rintro ⟨hh, -⟩
    exact h1 ⟨hh.1, hh.2⟩

/-! ### C1: score-store round trip and tamper rejection

Facts about Python's `str()` of integers, needed for the tamper
analysis. -/

theorem digits_ten_42 : Nat.digits 10 42 = [2, 4] := by
  rw [Nat.digits_def' (by norm_num : (1 : ℕ) < 10) (by norm_num : 0 < 42)]
  norm_num

theorem pyIntStr_42 : pyIntStr 42 = "42" := by
  unfold pyIntStr natChars
  rw [if_neg (by norm_num), if_neg (by norm_num),
    show (42 : ℤ).toNat = 42 from rfl, digits_ten_42]
  decide

theorem charDigit_digitChar {d : ℕ} (hd : d < 10) :
    charDigit (Nat.digitChar d) = d := by
  interval_cases d <;> rfl

theorem parseNat_natChars (m : ℕ) : parseNatChars (natChars m) = m := by
  unfold natChars
  split_ifs with h
  · subst h
    rfl
  · unfold parseNatChars
    rw [List.map_reverse, List.reverse_reverse, List.map_map]
    have he : ∀ a ∈ Nat.digits 10 m, (charDigit ∘ Nat.digitChar) a = id a :=
      fun a ha => charDigit_digitChar (Nat.digits_lt_base (by norm_num) ha)
    rw [List.map_congr_left he, List.map_id, Nat.ofDigits_digits]

theorem natChars_ne_dash (m : ℕ) (cs : List Char) : natChars m ≠ '-' :: cs := by
  intro h
  unfold natChars at h
  split_ifs at h with h0
  · simp at h
  · have hmem : '-' ∈ ((Nat.digits 10 m).map Nat.digitChar).reverse := by
      rw [h]
      exact List.mem_cons_self _ _
    rw [List.mem_reverse] at hmem
    obtain ⟨d, hd, he⟩ := List.mem_map.mp hmem
    have hlt : d < 10 := Nat.digits_lt_base (by norm_num) hd
    interval_cases d <;> exact absurd he (by decide)

theorem natChars_ne_nil (m : ℕ) : natChars m ≠ [] := by
  unfold natChars
  split_ifs with h0
  · simp
  · simp [Nat.digits_ne_nil_iff_ne_zero, h0]

theorem parseInt_pyIntStr (n : ℤ) : parseIntChars (pyIntStr n).data = n := by
  unfold pyIntStr
  split_ifs with hneg
  · show parseIntChars ('-' :: natChars n.natAbs) = n
    rw [show parseIntChars ('-' :: natChars n.natAbs) =
      -(parseNatChars (natChars n.natAbs) : ℤ) from rfl, parseNat_natChars]
    omega
  · show parseIntChars (natChars n.toNat) = n
    rcases hnc : natChars n.toNat with _ | ⟨c, cs⟩
    · exact absurd hnc (natChars_ne_nil _)
    · have hc : c ≠ '-' := by
        intro h
        subst h
        exact natChars_ne_dash n.toNat cs hnc
      unfold parseIntChars
      split
      · next cs2 heq =>
          rw [List.cons.injEq] at heq
          exact absurd heq.1 hc
      · rw [← hnc, parseNat_natChars]
        omega

/-- Distinct integers have distinct Python `str()` representations. -/
theorem pyIntStr_injective : Function.Injective pyIntStr := by
  intro a b h
  have ha := parseInt_pyIntStr a
  rw [h, parseInt_pyIntStr b] at ha
  exact ha.symm

/-- The ℤ-typed store is the restriction of the JSON-level store to
integer-valued records. -/
theorem load_high_score_json_int {σ : Type} [DecidableEq σ]
    (hmac : String → σ) (n : ℤ) (g : σ) :
    load_high_score_json hmac (some ⟨JVal.jint n, g⟩) =
      JVal.jint (load_high_score (fun k => hmac (pyStr (JVal.jint k)))
        (some ⟨n, g⟩)) := by
  simp only [load_high_score_json, load_high_score]
  split_ifs <;> rfl

/-- C1 counterexample: the claim fails on the source at a concrete input.
After `save_high_score(42)` the stored signature is the keyed hash of
`"42"`; replacing the `high_score` field by the JSON string `"42"` — a
different value than the integer 42 — keeps the signature valid, because
`_compute_score_signature` hashes `str(score)` and `str("42") = str(42)`,
so `load_high_score()` returns `"42"`, not 0.  Instantiated with the hash
abstracted as the identity on message strings. -/
theorem score_store_string_tamper_counterexample :
    (save_high_score_json (σ := String) id 42).signature = "42" ∧
    load_high_score_json (σ := String) id
      (some ⟨JVal.jstr "42", (save_high_score_json (σ := String) id 42).signature⟩) =
      JVal.jstr "42" ∧
    (JVal.jstr "42" ≠ JVal.jint 42) ∧
    (JVal.jstr "42" ≠ JVal.jint 0) := by
  have h42 : (save_high_score_json (σ := String) id 42).signature = "42" := by
    show id (pyStr (JVal.jint 42)) = "42"
    exact pyIntStr_42
  refine ⟨h42, ?_, by decide, by decide⟩
  rw [h42]
  show (if "42" = id (pyStr (JVal.jstr "42")) then JVal.jstr "42" else JVal.jint 0) =
    JVal.jstr "42"
  exact if_pos rfl

/-- C1 amended: for every integer `s`, saving then loading with the file
unchanged returns `s`, and an absent file loads as 0; modifying the
`signature` field to any different value makes loading return 0; modifying
the `high_score` field is rejected (load returns 0) exactly when the new
value's `str()` representation differs from `str(s)` — in particular for
every different integer — while a value with the same representation (the
JSON string form of `s`) passes the check and is returned as stored.  The
keyed hash is the abstract `hmac` on message strings; injectivity is what
HMAC-SHA256's collision resistance provides. -/
theorem score_store_roundtrip_tamper_amended {σ : Type} [DecidableEq σ]
    (hmac : String → σ) (hinj : Function.Injective hmac) (s : ℤ) :
    load_high_score_json hmac (some (save_high_score_json hmac s)) =
      JVal.jint s ∧
    (∀ s2 : ℤ, s2 ≠ s →
      load_high_score_json hmac (some ⟨JVal.jint s2, hmac (pyIntStr s)⟩) =
        JVal.jint 0) ∧
    (∀ v : JVal, pyStr v ≠ pyIntStr s →
      load_high_score_json hmac (some ⟨v, hmac (pyIntStr s)⟩) = JVal.jint 0) ∧
    (∀ v : JVal, pyStr v = pyIntStr s →
      load_high_score_json hmac (some ⟨v, hmac (pyIntStr s)⟩) = v) ∧
    (∀ g : σ, g ≠ hmac (pyIntStr s) →
      load_high_score_json hmac (some ⟨JVal.jint s, g⟩) = JVal.jint 0) ∧
    load_high_score_json hmac (none : Option (JsonScoreRecord σ)) =
      JVal.jint 0 := by
  refine ⟨?_, ?_, ?_, ?_, ?_, rfl⟩
  · show (if hmac (pyStr (JVal.jint s)) = hmac (pyStr (JVal.jint s)) then
      JVal.jint s else JVal.jint 0) = JVal.jint s
    rw [if_pos rfl]
  · intro s2 hne
    show (if hmac (pyIntStr s) = hmac (pyStr (JVal.jint s2)) then JVal.jint s2
      else JVal.jint 0) = JVal.jint 0
    rw [if_neg]
    intro hc
    exact hne (pyIntStr_injective ((hinj hc).symm))
  · intro v hv
    show (if hmac (pyIntStr s) = hmac (pyStr v) then v else JVal.jint 0) =
      JVal.jint 0
    rw [if_neg]
    intro hc
    exact hv ((hinj hc).symm)
  · intro v hv
    show (if hmac (pyIntStr s) = hmac (pyStr v) then v else JVal.jint 0) = v
    rw [if_pos (by rw [hv])]
  · intro g hg
    show (if g = hmac (pyStr (JVal.jint s)) then JVal.jint s else JVal.jint 0) =
      JVal.jint 0
    exact if_neg hg

/-- C1 witness: the amended statement at score 42 with the hash the
identity on strings — round trip, integer tamper to 7 rejected, string
tamper to "x" rejected, string tamper to "42" returned as stored,
signature tamper rejected, absent file. -/
theorem score_store_roundtrip_tamper_amended_witness :
    load_high_score_json (σ := String) id (some (save_high_score_json id 42)) =
      JVal.jint 42 ∧
    load_high_score_json (σ := String) id
      (some ⟨JVal.jint 7, id (pyIntStr 42)⟩) = JVal.jint 0 ∧
    load_high_score_json (σ := String) id
      (some ⟨JVal.jstr "x", id (pyIntStr 42)⟩) = JVal.jint 0 ∧
    load_high_score_json (σ := String) id
      (some ⟨JVal.jstr "42", id (pyIntStr 42)⟩) = JVal.jstr "42" ∧
    load_high_score_json (σ := String) id (some ⟨JVal.jint 42, "zz"⟩) =
      JVal.jint 0 ∧
    load_high_score_json (σ := String) id
      (none : Option (JsonScoreRecord String)) = JVal.jint 0 := by
  obtain ⟨h1, h2, h3, h4, h5, h6⟩ :=
    score_store_roundtrip_tamper_amended (σ := String) id (fun a b h => h) 42
  exact ⟨h1, h2 7 (by decide), h3 (JVal.jstr "x") (by rw [pyIntStr_42]; decide),
    h4 (JVal.jstr "42") (by show "42" = pyIntStr 42; rw [pyIntStr_42]),
    h5 "zz" (by rw [pyIntStr_42]; decide), h6⟩

/-! ### C4: swept-collision characterization -/

/-- C4: `check_obstacle_collision` returns true iff the player's horizontal
extent overlaps the obstacle's and either the bottom edge crossed the
obstacle top between frames or it currently lies in the landing zone; at
the spec's concrete pass-through case (prev bottom 180, current bottom 230,
obstacle top 200 over x in 100..180) it detects a collision for every
horizontally overlapping player x, and not at x = 20. -/
theorem collision_characterization :
    (∀ (px py ppy : ℚ) (o : Obstacle),
      check_obstacle_collision px py ppy o = true ↔
        (o.x < px + (PLAYER_WIDTH : ℚ) ∧ px < o.x + o.width) ∧
        ((ppy + (PLAYER_HEIGHT : ℚ) ≤ o.y ∧ o.y ≤ py + (PLAYER_HEIGHT : ℚ)) ∨
         (o.y ≤ py + (PLAYER_HEIGHT : ℚ) ∧
          py + (PLAYER_HEIGHT : ℚ) ≤ o.y + o.height + (LANDING_TOLERANCE : ℚ)))) ∧
    (∀ px : ℚ, (100 : ℚ) < px + (PLAYER_WIDTH : ℚ) → px < 180 →
      check_obstacle_collision px 190 140 ⟨100, 200, 80, 20, false⟩ = true) ∧
    check_obstacle_collision 20 190 140 ⟨100, 200, 80, 20, false⟩ = false := by
  refine ⟨check_obstacle_collision_iff, ?_, ?_⟩
  · intro px h1 h2
    rw [check_obstacle_collision_iff]
    refine ⟨⟨h1, ?_⟩, Or.inl ⟨?_, ?_⟩⟩
    · show px < (100 : ℚ) + 80
      linarith
    · show (140 : ℚ) + (PLAYER_HEIGHT : ℚ) ≤ 200
      norm_num [PLAYER_HEIGHT]
    · show (200 : ℚ) ≤ 190 + (PLAYER_HEIGHT : ℚ)
      norm_num [PLAYER_HEIGHT]
  · rw [← Bool.not_eq_true, check_obstacle_collision_iff]
    norm_num [PLAYER_WIDTH, PLAYER_HEIGHT, LANDING_TOLERANCE]

/-- C4 witness: the characterization applied at the concrete pass-through
input with player x = 100. -/
theorem collision_characterization_witness :
    check_obstacle_collision 100 190 140 ⟨100, 200, 80, 20, false⟩ = true :=
  collision_characterization.2.1 100 (by norm_num [PLAYER_WIDTH]) (by norm_num)

/-! ### C10: strict horizontal overlap, inclusive vertical contact -/

/-- C10: an exact edge-to-edge horizontal touch (player right edge equal to
the obstacle left edge, or player left edge equal to the obstacle right
edge) is never a landing, while a bottom edge exactly on the obstacle top,
with horizontal overlap, always is (for the game's nonnegative obstacle
heights). -/
theorem edge_touch_and_top_contact :
    (∀ (px py ppy : ℚ) (o : Obstacle), px + (PLAYER_WIDTH : ℚ) = o.x →
        check_obstacle_collision px py ppy o = false) ∧
    (∀ (px py ppy : ℚ) (o : Obstacle), px = o.x + o.width →
        check_obstacle_collision px py ppy o = false) ∧
    (∀ (px py ppy : ℚ) (o : Obstacle), 0 ≤ o.height →
        o.x < px + (PLAYER_WIDTH : ℚ) → px < o.x + o.width →
        py + (PLAYER_HEIGHT : ℚ) = o.y →
        check_obstacle_collision px py ppy o = true) := by
  refine ⟨?_, ?_, ?_⟩
  · intro px py ppy o h
    rw [← Bool.not_eq_true, check_obstacle_collision_iff]
    rintro ⟨⟨h1, -⟩, -⟩
    rw [h] at h1
    exact absurd h1 (lt_irrefl _)
  · intro px py ppy o h
    rw [← Bool.not_eq_true, check_obstacle_collision_iff]
    rintro ⟨⟨-, h2⟩, -⟩
    rw [h] at h2
    exact absurd h2 (lt_irrefl _)
  · intro px py ppy o hh h1 h2 hb
    rw [check_obstacle_collision_iff]
    refine ⟨⟨h1, h2⟩, Or.inr ⟨le_of_eq hb.symm, ?_⟩⟩
    rw [hb]
    have : (0 : ℚ) ≤ (LANDING_TOLERANCE : ℚ) := by norm_num [LANDING_TOLERANCE]
    linarith

/-- C10 witness: edge touches at concrete positions rejected, exact
top-contact landing accepted. -/
theorem edge_touch_and_top_contact_witness :
    check_obstacle_collision 60 190 140 ⟨100, 200, 80, 20, false⟩ = false ∧
    check_obstacle_collision 180 190 140 ⟨100, 200, 80, 20, false⟩ = false ∧
    check_obstacle_collision 120 160 140 ⟨100, 200, 80, 20, false⟩ = true := by
  refine ⟨?_, ?_, ?_⟩
  · exact edge_touch_and_top_contact.1 60 190 140 ⟨100, 200, 80, 20, false⟩
      (by norm_num [PLAYER_WIDTH])
  · exact edge_touch_and_top_contact.2.1 180 190 140 ⟨100, 200, 80, 20, false⟩
      (by norm_num)
  · exact edge_touch_and_top_contact.2.2 120 160 140 ⟨100, 200, 80, 20, false⟩
      (by norm_num) (by norm_num [PLAYER_WIDTH]) (by norm_num)
      (by norm_num [PLAYER_HEIGHT])

/-! ### C3: the minimum-gap formula -/

/-- C3 counterexample: at speed 5.625 (exactly representable as a binary
float, so the rational model agrees with the Python float computation) the
source's `int()` truncation gives 61 while the claimed `ceil` formula gives
62 — the claim's equation is false there. -/
theorem min_gap_ceil_counterexample :
    ¬ (get_min_gap (45 / 8 : ℚ) =
        max MIN_GAP
          ⌈(45 / 8 : ℚ) * (MIN_JUMP_FRAMES : ℚ) - (MIN_OBSTACLE_WIDTH : ℚ) +
            (GAP_BUFFER : ℚ)⌉) := by
  have harg : (45 / 8 : ℚ) * (MIN_JUMP_FRAMES : ℚ) - (MIN_OBSTACLE_WIDTH : ℚ) +
      (GAP_BUFFER : ℚ) = 245 / 4 := by
    norm_num [MIN_JUMP_FRAMES, MIN_OBSTACLE_WIDTH, GAP_BUFFER]
  have hfloor : ⌊(245 / 4 : ℚ)⌋ = 61 := by
    rw [Int.floor_eq_iff]
    norm_num
  have hceil : ⌈(245 / 4 : ℚ)⌉ = 62 := by
    rw [Int.ceil_eq_iff]
    norm_num
  rw [get_min_gap, harg, hceil, pyInt_of_nonneg _ (by norm_num), hfloor]
  norm_num [MIN_GAP]

/-- C3 amended: `get_min_gap(speed)` equals
`max(MIN_GAP, floor(speed * MIN_JUMP_FRAMES - MIN_OBSTACLE_WIDTH + GAP_BUFFER))`
for every `speed ≥ 0` (the source truncates with `int()`, which coincides
with `floor` wherever it can affect the `max`); it is non-decreasing in
speed, never below `MIN_GAP`, and equals `MIN_GAP` exactly at
`BASE_SCROLL_SPEED`. -/
theorem min_gap_amended :
    (∀ speed : ℚ, 0 ≤ speed →
      get_min_gap speed =
        max MIN_GAP
          ⌊speed * (MIN_JUMP_FRAMES : ℚ) - (MIN_OBSTACLE_WIDTH : ℚ) +
            (GAP_BUFFER : ℚ)⌋) ∧
    (∀ s1 s2 : ℚ, s1 ≤ s2 → get_min_gap s1 ≤ get_min_gap s2) ∧
    (∀ speed : ℚ, MIN_GAP ≤ get_min_gap speed) ∧
    get_min_gap (BASE_SCROLL_SPEED : ℚ) = MIN_GAP := by
  refine ⟨?_, ?_, ?_, ?_⟩
  · intro speed hsp
    unfold get_min_gap
    rcases le_or_lt 0 (speed * (MIN_JUMP_FRAMES : ℚ) - (MIN_OBSTACLE_WIDTH : ℚ) +
        (GAP_BUFFER : ℚ)) with hq | hq
    · rw [pyInt_of_nonneg _ hq]
    · have hceil : ⌈speed * (MIN_JUMP_FRAMES : ℚ) - (MIN_OBSTACLE_WIDTH : ℚ) +
          (GAP_BUFFER : ℚ)⌉ ≤ 0 := by
        have := Int.ceil_le_ceil (α := ℚ) (le_of_lt hq)
        simpa using this
      have hfloor : ⌊speed * (MIN_JUMP_FRAMES : ℚ) - (MIN_OBSTACLE_WIDTH : ℚ) +
          (GAP_BUFFER : ℚ)⌋ ≤ 0 := by
        have := Int.floor_le_floor (α := ℚ) (le_of_lt hq)
        simpa using this
      unfold pyInt
      rw [if_pos hq,
        max_eq_left (le_trans hceil (by norm_num [MIN_GAP])),
        max_eq_left (le_trans hfloor (by norm_num [MIN_GAP]))]
  · intro s1 s2 h
    unfold get_min_gap
    exact max_le_max (le_refl _)
      (pyInt_mono (by
        have : s1 * (MIN_JUMP_FRAMES : ℚ) ≤ s2 * (MIN_JUMP_FRAMES : ℚ) := by
          apply mul_le_mul_of_nonneg_right h
          norm_num [MIN_JUMP_FRAMES]
        linarith))
  · intro speed
    exact le_max_left _ _
  · have harg : (BASE_SCROLL_SPEED : ℚ) * (MIN_JUMP_FRAMES : ℚ) -
        (MIN_OBSTACLE_WIDTH : ℚ) + (GAP_BUFFER : ℚ) = ((32 : ℤ) : ℚ) := by
      norm_num [BASE_SCROLL_SPEED, MIN_JUMP_FRAMES, MIN_OBSTACLE_WIDTH, GAP_BUFFER]
    rw [get_min_gap, harg, pyInt_intCast]
    norm_num [MIN_GAP]

/-- C3 witness: the amended formula at speed 10, monotonicity between
speeds 4 and 12. -/
theorem min_gap_amended_witness :
    get_min_gap (10 : ℚ) =
      max MIN_GAP
        ⌊(10 : ℚ) * (MIN_JUMP_FRAMES : ℚ) - (MIN_OBSTACLE_WIDTH : ℚ) +
          (GAP_BUFFER : ℚ)⌋ ∧
    get_min_gap (4 : ℚ) ≤ get_min_gap (12 : ℚ) :=
  ⟨min_gap_amended.1 10 (by norm_num), min_gap_amended.2.1 4 12 (by norm_num)⟩

/-! ### Characterizations of `generate_obstacle` -/

theorem generate_obstacle_scored (lo : Option Obstacle) (fg : Bool) (sp : ℚ)
    (r : RNG) : (generate_obstacle lo fg sp r).1.scored = false := by
  rcases lo with _ | o <;> cases fg <;> rfl

/-- Shape of the chained branch, with no assumption on the previous
obstacle: the new obstacle sits one bounded gap to the right, has bounded
width, fixed thickness, an integer `y`, and is unscored. -/
theorem generate_obstacle_chained_shape (last : Obstacle) (sp : ℚ) (r : RNG) :
    ∃ w g y : ℤ, ∃ r2 : RNG,
      MIN_OBSTACLE_WIDTH ≤ w ∧ w ≤ MAX_OBSTACLE_WIDTH ∧
      get_min_gap sp ≤ g ∧ g ≤ max (get_min_gap sp) MAX_GAP ∧
      generate_obstacle (some last) false sp r =
        (⟨last.x + last.width + (g : ℚ), (y : ℚ), (w : ℚ),
          (OBSTACLE_THICKNESS : ℚ), false⟩, r2) := by
  obtain ⟨hw1, hw2⟩ := randint_bounds MIN_OBSTACLE_WIDTH MAX_OBSTACLE_WIDTH r
    (by norm_num [MIN_OBSTACLE_WIDTH, MAX_OBSTACLE_WIDTH])
  obtain ⟨hg1, hg2⟩ := randint_bounds (get_min_gap sp)
    (max (get_min_gap sp) MAX_GAP)
    (randint MIN_OBSTACLE_WIDTH MAX_OBSTACLE_WIDTH r).2 (le_max_left _ _)
  simp only [generate_obstacle]
  split_ifs with hs
  · exact ⟨_, _, _, _, hw1, hw2, hg1, hg2, rfl⟩
  · exact ⟨_, _, _, _, hw1, hw2, hg1, hg2, rfl⟩

/-- The chained branch when the reachability interval is not inverted: the
drawn `y` lies between the truncations of the interval bounds. -/
theorem generate_obstacle_chained_eq (last : Obstacle) (sp : ℚ) (r : RNG)
    (hswap : ¬ (max (MIN_PLATFORM_Y : ℚ) (last.y - (MAX_JUMP_HEIGHT : ℚ)) >
        min (MAX_PLATFORM_Y : ℚ) (last.y + (MAX_HEIGHT_DIFF : ℚ)))) :
    ∃ w g y : ℤ, ∃ r2 : RNG,
      MIN_OBSTACLE_WIDTH ≤ w ∧ w ≤ MAX_OBSTACLE_WIDTH ∧
      get_min_gap sp ≤ g ∧ g ≤ max (get_min_gap sp) MAX_GAP ∧
      pyInt (max (MIN_PLATFORM_Y : ℚ) (last.y - (MAX_JUMP_HEIGHT : ℚ))) ≤ y ∧
      y ≤ pyInt (min (MAX_PLATFORM_Y : ℚ) (last.y + (MAX_HEIGHT_DIFF : ℚ))) ∧
      generate_obstacle (some last) false sp r =
        (⟨last.x + last.width + (g : ℚ), (y : ℚ), (w : ℚ),
          (OBSTACLE_THICKNESS : ℚ), false⟩, r2) := by
  obtain ⟨hw1, hw2⟩ := randint_bounds MIN_OBSTACLE_WIDTH MAX_OBSTACLE_WIDTH r
    (by norm_num [MIN_OBSTACLE_WIDTH, MAX_OBSTACLE_WIDTH])
  obtain ⟨hg1, hg2⟩ := randint_bounds (get_min_gap sp)
    (max (get_min_gap sp) MAX_GAP)
    (randint MIN_OBSTACLE_WIDTH MAX_OBSTACLE_WIDTH r).2 (le_max_left _ _)
  obtain ⟨hy1, hy2⟩ := randint_bounds
    (pyInt (max (MIN_PLATFORM_Y : ℚ) (last.y - (MAX_JUMP_HEIGHT : ℚ))))
    (pyInt (min (MAX_PLATFORM_Y : ℚ) (last.y + (MAX_HEIGHT_DIFF : ℚ))))
    (randint (get_min_gap sp) (max (get_min_gap sp) MAX_GAP)
      (randint MIN_OBSTACLE_WIDTH MAX_OBSTACLE_WIDTH r).2).2
    (pyInt_mono (not_lt.mp hswap))
  simp only [generate_obstacle]
  rw [if_neg hswap]
  exact ⟨_, _, _, _, hw1, hw2, hg1, hg2, hy1, hy2, rfl⟩

/-- The from-ground and no-context branches: `y` within the valid platform
range (and an integer), `x` off-screen right, bounded width, unscored. -/
theorem generate_obstacle_initial_spec (lo : Option Obstacle) (fg : Bool)
    (sp : ℚ) (r : RNG) (h : lo = none ∨ fg = true) :
    (MIN_PLATFORM_Y : ℚ) ≤ (generate_obstacle lo fg sp r).1.y ∧
    (generate_obstacle lo fg sp r).1.y ≤ (MAX_PLATFORM_Y : ℚ) ∧
    (∃ k : ℤ, (generate_obstacle lo fg sp r).1.y = (k : ℚ)) ∧
    (SCREEN_WIDTH : ℚ) + (INITIAL_OBSTACLE_OFFSET_MIN : ℚ) ≤
      (generate_obstacle lo fg sp r).1.x ∧
    (MIN_OBSTACLE_WIDTH : ℚ) ≤ (generate_obstacle lo fg sp r).1.width ∧
    (generate_obstacle lo fg sp r).1.scored = false := by
  have hoff := randint_bounds INITIAL_OBSTACLE_OFFSET_MIN INITIAL_OBSTACLE_OFFSET_MAX
    (randint MIN_OBSTACLE_WIDTH MAX_OBSTACLE_WIDTH r).2
    (by norm_num [INITIAL_OBSTACLE_OFFSET_MIN, INITIAL_OBSTACLE_OFFSET_MAX])
  have hw := randint_bounds MIN_OBSTACLE_WIDTH MAX_OBSTACLE_WIDTH r
    (by norm_num [MIN_OBSTACLE_WIDTH, MAX_OBSTACLE_WIDTH])
  rcases lo with _ | o <;> cases fg
  · have hy := randint_bounds MIN_PLATFORM_Y MAX_PLATFORM_Y
      (randint INITIAL_OBSTACLE_OFFSET_MIN INITIAL_OBSTACLE_OFFSET_MAX
        (randint MIN_OBSTACLE_WIDTH MAX_OBSTACLE_WIDTH r).2).2
      (by norm_num [MIN_PLATFORM_Y, MAX_PLATFORM_Y, GROUND_Y, SCREEN_HEIGHT])
    simp only [generate_obstacle]
    exact ⟨by exact_mod_cast hy.1, by exact_mod_cast hy.2, ⟨_, rfl⟩,
      add_le_add_left (by exact_mod_cast hoff.1) _, by exact_mod_cast hw.1, trivial⟩
  · have hy := randint_bounds (GROUND_Y - MAX_JUMP_HEIGHT) MAX_PLATFORM_Y
      (randint INITIAL_OBSTACLE_OFFSET_MIN INITIAL_OBSTACLE_OFFSET_MAX
        (randint MIN_OBSTACLE_WIDTH MAX_OBSTACLE_WIDTH r).2).2
      (by norm_num [MAX_PLATFORM_Y, GROUND_Y, SCREEN_HEIGHT, MAX_JUMP_HEIGHT])
    have h2 : (MIN_PLATFORM_Y : ℤ) ≤ GROUND_Y - MAX_JUMP_HEIGHT := by
      norm_num [MIN_PLATFORM_Y, GROUND_Y, SCREEN_HEIGHT, MAX_JUMP_HEIGHT]
    simp only [generate_obstacle]
    exact ⟨by exact_mod_cast le_trans h2 hy.1, by exact_mod_cast hy.2, ⟨_, rfl⟩,
      add_le_add_left (by exact_mod_cast hoff.1) _, by exact_mod_cast hw.1, trivial⟩
  · exact absurd h (by simp)
  · have hy := randint_bounds (GROUND_Y - MAX_JUMP_HEIGHT) MAX_PLATFORM_Y
      (randint INITIAL_OBSTACLE_OFFSET_MIN INITIAL_OBSTACLE_OFFSET_MAX
        (randint MIN_OBSTACLE_WIDTH MAX_OBSTACLE_WIDTH r).2).2
      (by norm_num [MAX_PLATFORM_Y, GROUND_Y, SCREEN_HEIGHT, MAX_JUMP_HEIGHT])
    have h2 : (MIN_PLATFORM_Y : ℤ) ≤ GROUND_Y - MAX_JUMP_HEIGHT := by
      norm_num [MIN_PLATFORM_Y, GROUND_Y, SCREEN_HEIGHT, MAX_JUMP_HEIGHT]
    simp only [generate_obstacle]
    exact ⟨by exact_mod_cast le_trans h2 hy.1, by exact_mod_cast hy.2, ⟨_, rfl⟩,
      add_le_add_left (by exact_mod_cast hoff.1) _, by exact_mod_cast hw.1, trivial⟩

/-- Under the platform-range precondition the chained reachability interval
is never inverted. -/
theorem interval_no_swap (yq : ℚ) (h1 : (MIN_PLATFORM_Y : ℚ) ≤ yq)
    (h2 : yq ≤ (MAX_PLATFORM_Y : ℚ)) :
    ¬ (max (MIN_PLATFORM_Y : ℚ) (yq - (MAX_JUMP_HEIGHT : ℚ)) >
        min (MAX_PLATFORM_Y : ℚ) (yq + (MAX_HEIGHT_DIFF : ℚ))) := by
  norm_num [MIN_PLATFORM_Y, MAX_PLATFORM_Y, GROUND_Y, SCREEN_HEIGHT,
    MAX_JUMP_HEIGHT, MAX_HEIGHT_DIFF] at h1 h2 ⊢
  exact ⟨by linarith, by linarith, by linarith⟩

/-- Chained generation from a previous obstacle in the platform range: the
drawn `y` stays in the range, and when the previous `y` is an integer the
vertical step obeys the jump/fall limits. -/
theorem chained_y_spec (last : Obstacle) (sp : ℚ) (r : RNG)
    (h1 : (MIN_PLATFORM_Y : ℚ) ≤ last.y) (h2 : last.y ≤ (MAX_PLATFORM_Y : ℚ)) :
    ∃ w g y : ℤ, ∃ r2 : RNG,
      MIN_OBSTACLE_WIDTH ≤ w ∧ w ≤ MAX_OBSTACLE_WIDTH ∧
      get_min_gap sp ≤ g ∧ g ≤ max (get_min_gap sp) MAX_GAP ∧
      (MIN_PLATFORM_Y : ℚ) ≤ (y : ℚ) ∧ (y : ℚ) ≤ (MAX_PLATFORM_Y : ℚ) ∧
      (∀ k : ℤ, last.y = (k : ℚ) →
        k - MAX_JUMP_HEIGHT ≤ y ∧ y ≤ k + MAX_HEIGHT_DIFF) ∧
      generate_obstacle (some last) false sp r =
        (⟨last.x + last.width + (g : ℚ), (y : ℚ), (w : ℚ),
          (OBSTACLE_THICKNESS : ℚ), false⟩, r2) := by
  have hswap := interval_no_swap last.y h1 h2
  obtain ⟨w, g, y, r2, hw1, hw2, hg1, hg2, hy1, hy2, heq⟩ :=
    generate_obstacle_chained_eq last sp r hswap
  have hminE : (MIN_PLATFORM_Y : ℚ) ≤
      max (MIN_PLATFORM_Y : ℚ) (last.y - (MAX_JUMP_HEIGHT : ℚ)) := le_max_left _ _
  have hminE0 : (0 : ℚ) ≤
      max (MIN_PLATFORM_Y : ℚ) (last.y - (MAX_JUMP_HEIGHT : ℚ)) :=
    le_trans (by norm_num [MIN_PLATFORM_Y]) hminE
  have hmaxE0 : (0 : ℚ) ≤
      min (MAX_PLATFORM_Y : ℚ) (last.y + (MAX_HEIGHT_DIFF : ℚ)) :=
    le_trans hminE0 (not_lt.mp hswap)
  have hyA : (MIN_PLATFORM_Y : ℤ) ≤ y := by
    refine le_trans ?_ hy1
    rw [pyInt_of_nonneg _ hminE0]
    exact Int.le_floor.mpr hminE
  have hyB : (y : ℚ) ≤ (MAX_PLATFORM_Y : ℚ) := by
    have h := hy2
    rw [pyInt_of_nonneg _ hmaxE0] at h
    have hcast : (y : ℚ) ≤
        (⌊min (MAX_PLATFORM_Y : ℚ) (last.y + (MAX_HEIGHT_DIFF : ℚ))⌋ : ℚ) := by
      exact_mod_cast h
    exact le_trans hcast (le_trans (Int.floor_le _) (min_le_left _ _))
  refine ⟨w, g, y, r2, hw1, hw2, hg1, hg2, by exact_mod_cast hyA, hyB, ?_, heq⟩
  intro k hk
  rw [hk] at hy1 hy2
  have e1 : max (MIN_PLATFORM_Y : ℚ) ((k : ℚ) - (MAX_JUMP_HEIGHT : ℚ)) =
      ((max MIN_PLATFORM_Y (k - MAX_JUMP_HEIGHT) : ℤ) : ℚ) := by
    push_cast
    rfl
  have e2 : min (MAX_PLATFORM_Y : ℚ) ((k : ℚ) + (MAX_HEIGHT_DIFF : ℚ)) =
      ((min MAX_PLATFORM_Y (k + MAX_HEIGHT_DIFF) : ℤ) : ℚ) := by
    push_cast
    rfl
  rw [e1, pyInt_intCast] at hy1
  rw [e2, pyInt_intCast] at hy2
  exact ⟨le_trans (le_max_right _ _) hy1, le_trans hy2 (min_le_right _ _)⟩

/-! ### Obstacle-chain lemmas -/

theorem chainFrom_length (speed : ℚ) :
    ∀ (n : Nat) (last : Obstacle) (r : RNG),
      ((chainFrom last speed n r).1).length = n
  | 0, _, _ => rfl
  | Nat.succ n, last, r => by
      simp only [chainFrom, List.length_cons, chainFrom_length speed n]

theorem chainFrom_mem (speed : ℚ) :
    ∀ (n : Nat) (last : Obstacle) (r : RNG), 0 ≤ last.width →
      ∀ o2 ∈ (chainFrom last speed n r).1, o2.scored = false ∧ last.x ≤ o2.x
  | 0, _, _, _ => by simp [chainFrom]
  | Nat.succ n, last, r, hw => by
      obtain ⟨w, g, y, r2, hw1, hw2, hg1, hg2, heq⟩ :=
        generate_obstacle_chained_shape last speed r
      have hgap : (0 : ℚ) ≤ (g : ℚ) := by
        have h60 : (0 : ℤ) ≤ g :=
          le_trans (le_trans (by norm_num [MIN_GAP]) (le_max_left MIN_GAP _)) hg1
        exact_mod_cast h60
      have hxle : last.x ≤ last.x + last.width + (g : ℚ) := by linarith
      intro o2 ho2
      simp only [chainFrom, heq, List.mem_cons] at ho2
      rcases ho2 with rfl | ho2
      · exact ⟨rfl, hxle⟩
      · have hrec := chainFrom_mem speed n
          ⟨last.x + last.width + (g : ℚ), (y : ℚ), (w : ℚ),
            (OBSTACLE_THICKNESS : ℚ), false⟩ r2
          (by
            show (0 : ℚ) ≤ (w : ℚ)
            have : (0 : ℤ) ≤ w := le_trans (by norm_num [MIN_OBSTACLE_WIDTH]) hw1
            exact_mod_cast this) o2 ho2
        exact ⟨hrec.1, le_trans hxle hrec.2⟩

theorem chainFrom_chain (speed : ℚ) :
    ∀ (n : Nat) (last : Obstacle) (r : RNG),
      (MIN_PLATFORM_Y : ℚ) ≤ last.y → last.y ≤ (MAX_PLATFORM_Y : ℚ) →
      (∃ k : ℤ, last.y = (k : ℚ)) →
      List.Chain (reachableStep speed) last (chainFrom last speed n r).1
  | 0, _, _, _, _, _ => List.Chain.nil
  | Nat.succ n, last, r, h1, h2, ⟨k, hk⟩ => by
      obtain ⟨w, g, y, r2, hw1, hw2, hg1, hg2, hA, hB, hstep, heq⟩ :=
        chained_y_spec last speed r h1 h2
      obtain ⟨hk1, hk2⟩ := hstep k hk
      simp only [chainFrom, heq]
      refine List.Chain.cons ⟨?_, ?_, ?_, ?_⟩
        (chainFrom_chain speed n _ r2 hA hB ⟨y, rfl⟩)
      · show ((get_min_gap speed : ℤ) : ℚ) ≤
          last.x + last.width + (g : ℚ) - (last.x + last.width)
        have : ((get_min_gap speed : ℤ) : ℚ) ≤ (g : ℚ) := by exact_mod_cast hg1
        linarith
      · show last.x + last.width + (g : ℚ) - (last.x + last.width) ≤
          ((max (get_min_gap speed) MAX_GAP : ℤ) : ℚ)
        have : (g : ℚ) ≤ ((max (get_min_gap speed) MAX_GAP : ℤ) : ℚ) := by
          exact_mod_cast hg2
        linarith
      · show last.y - (y : ℚ) ≤ (MAX_JUMP_HEIGHT : ℚ)
        rw [hk]
        have : ((k - MAX_JUMP_HEIGHT : ℤ) : ℚ) ≤ (y : ℚ) := by exact_mod_cast hk1
        push_cast at this
        linarith
      · show (y : ℚ) - last.y ≤ (MAX_HEIGHT_DIFF : ℚ)
        rw [hk]
        have : (y : ℚ) ≤ ((k + MAX_HEIGHT_DIFF : ℤ) : ℚ) := by exact_mod_cast hk2
        push_cast at this
        linarith

/-! ### C7: chain reachability invariants -/

/-- C7: every obstacle chain built by `generate_obstacle` — a first
obstacle from the ground or with no context, then chained at a fixed speed
— has all consecutive gaps in
`[get_min_gap speed, max (get_min_gap speed) MAX_GAP]` and every vertical
step at most `MAX_JUMP_HEIGHT` up and at most `MAX_HEIGHT_DIFF` down. -/
theorem chain_gap_and_step_invariant (fg : Bool) (speed : ℚ) (n : Nat)
    (r : RNG) :
    List.Chain' (reachableStep speed) (obstacleChain fg speed n r).1 := by
  obtain ⟨hy1, hy2, hk, -, -, -⟩ :=
    generate_obstacle_initial_spec none fg speed r (Or.inl rfl)
  show List.Chain (reachableStep speed) (generate_obstacle none fg speed r).1
    (chainFrom (generate_obstacle none fg speed r).1 speed n
      (generate_obstacle none fg speed r).2).1
  exact chainFrom_chain speed n _ _ hy1 hy2 hk

/-! ### C9: generated platform heights -/

/-- C9 counterexample: the claim's unconditional range statement is false —
with a previous obstacle at y = 500 (outside the platform range) the
chained branch takes the bound-swapping path and can return y = 380, above
`MAX_PLATFORM_Y`. -/
theorem platform_y_counterexample :
    (MAX_PLATFORM_Y : ℚ) <
      (generate_obstacle (some ⟨0, 500, 60, 20, false⟩) false
        (BASE_SCROLL_SPEED : ℚ) rngC9).1.y := by
  norm_num [generate_obstacle, randint, RNG.next, rngC9, get_min_gap, pyInt,
    MIN_OBSTACLE_WIDTH, MAX_OBSTACLE_WIDTH, MIN_GAP, MAX_GAP, MIN_JUMP_FRAMES,
    GAP_BUFFER, MIN_PLATFORM_Y, MAX_PLATFORM_Y, MAX_JUMP_HEIGHT,
    MAX_HEIGHT_DIFF, GROUND_Y, SCREEN_HEIGHT, BASE_SCROLL_SPEED,
    OBSTACLE_THICKNESS, max_def, min_def]

/-- C9 amended: in the from-ground and no-context branches the returned `y`
always lies in `[MIN_PLATFORM_Y, MAX_PLATFORM_Y]`; in the chained branch
the same holds under the precondition that the previous obstacle's `y` lies
in that range, and then the computed interval is never inverted, so the
bound-swapping branch is unreachable. -/
theorem platform_y_amended :
    (∀ (lo : Option Obstacle) (fg : Bool) (sp : ℚ) (r : RNG),
        lo = none ∨ fg = true →
        (MIN_PLATFORM_Y : ℚ) ≤ (generate_obstacle lo fg sp r).1.y ∧
        (generate_obstacle lo fg sp r).1.y ≤ (MAX_PLATFORM_Y : ℚ)) ∧
    (∀ (last : Obstacle) (sp : ℚ) (r : RNG),
        (MIN_PLATFORM_Y : ℚ) ≤ last.y → last.y ≤ (MAX_PLATFORM_Y : ℚ) →
        ((MIN_PLATFORM_Y : ℚ) ≤ (generate_obstacle (some last) false sp r).1.y ∧
         (generate_obstacle (some last) false sp r).1.y ≤ (MAX_PLATFORM_Y : ℚ) ∧
         max (MIN_PLATFORM_Y : ℚ) (last.y - (MAX_JUMP_HEIGHT : ℚ)) ≤
           min (MAX_PLATFORM_Y : ℚ) (last.y + (MAX_HEIGHT_DIFF : ℚ)))) := by
  constructor
  · intro lo fg sp r h
    obtain ⟨a, b, -, -, -, -⟩ := generate_obstacle_initial_spec lo fg sp r h
    exact ⟨a, b⟩
  · intro last sp r h1 h2
    obtain ⟨w, g, y, r2, -, -, -, -, hA, hB, -, heq⟩ :=
      chained_y_spec last sp r h1 h2
    rw [heq]
    exact ⟨hA, hB, not_lt.mp (interval_no_swap last.y h1 h2)⟩

/-- C9 witness: the amended statement at a concrete from-ground call and a
concrete chained call from a previous obstacle at y = 230. -/
theorem platform_y_amended_witness :
    ((MIN_PLATFORM_Y : ℚ) ≤ (generate_obstacle none true 4 rngZero).1.y ∧
     (generate_obstacle none true 4 rngZero).1.y ≤ (MAX_PLATFORM_Y : ℚ)) ∧
    ((MIN_PLATFORM_Y : ℚ) ≤
      (generate_obstacle (some ⟨900, 230, 60, 20, false⟩) false 4 rngZero).1.y ∧
     (generate_obstacle (some ⟨900, 230, 60, 20, false⟩) false 4 rngZero).1.y ≤
      (MAX_PLATFORM_Y : ℚ) ∧
     max (MIN_PLATFORM_Y : ℚ) ((230 : ℚ) - (MAX_JUMP_HEIGHT : ℚ)) ≤
      min (MAX_PLATFORM_Y : ℚ) ((230 : ℚ) + (MAX_HEIGHT_DIFF : ℚ))) := by
  constructor
  · exact platform_y_amended.1 none true 4 rngZero (Or.inl rfl)
  · exact platform_y_amended.2 ⟨900, 230, 60, 20, false⟩ 4 rngZero
      (by norm_num [MIN_PLATFORM_Y])
      (by norm_num [MAX_PLATFORM_Y, GROUND_Y, SCREEN_HEIGHT])

/-! ### C2: `reset_game` -/

/-- C2 counterexample: with the all-zero random stream (any stream behaves
the same way here), `reset_game` puts the player at the bare-ground height
`GROUND_Y - PLAYER_HEIGHT`, and every generated obstacle — the first one
included — is unscored and lies strictly right of the player's horizontal
extent, so the player does not begin the run standing on a platform and no
starting platform is pre-scored. -/
theorem reset_game_counterexample :
    (reset_game (σ := ℤ) id none rngZero).1.player_y =
      (GROUND_Y : ℚ) - (PLAYER_HEIGHT : ℚ) ∧
    ∀ o ∈ (reset_game (σ := ℤ) id none rngZero).1.obstacles,
      (PLAYER_X : ℚ) + (PLAYER_WIDTH : ℚ) < o.x ∧ o.scored = false := by
  constructor
  · rfl
  · norm_num [reset_game, obstacleChain, chainFrom, generate_obstacle,
      load_high_score, randint, RNG.next, rngZero, get_min_gap, pyInt,
      MIN_OBSTACLE_WIDTH, MAX_OBSTACLE_WIDTH, MIN_GAP, MAX_GAP,
      MIN_JUMP_FRAMES, GAP_BUFFER, MIN_PLATFORM_Y, MAX_PLATFORM_Y,
      MAX_JUMP_HEIGHT, MAX_HEIGHT_DIFF, GROUND_Y, SCREEN_WIDTH, SCREEN_HEIGHT,
      BASE_SCROLL_SPEED, OBSTACLE_THICKNESS, INITIAL_OBSTACLE_COUNT,
      INITIAL_OBSTACLE_OFFSET_MIN, INITIAL_OBSTACLE_OFFSET_MAX, PLAYER_X,
      PLAYER_WIDTH, max_def, min_def]

/-- C2 amended: `reset_game` always yields velocity 0, not jumping, jump
not held, `has_jumped` false, score 0, game not over, no buffered jump,
empty debris, an obstacle chain of length `INITIAL_OBSTACLE_COUNT + 1` in
which every obstacle (the first included) is unscored and spawns strictly
right of the player, and the player starting on bare ground at
`GROUND_Y - PLAYER_HEIGHT`, not on a platform. -/
theorem reset_game_amended {σ : Type} [DecidableEq σ] (sig : ℤ → σ)
    (file : Option (ScoreRecord σ)) (r : RNG) :
    (reset_game sig file r).1.player_velocity_y = 0 ∧
    (reset_game sig file r).1.is_jumping = false ∧
    (reset_game sig file r).1.jump_held = false ∧
    (reset_game sig file r).1.has_jumped = false ∧
    (reset_game sig file r).1.score = 0 ∧
    (reset_game sig file r).1.game_over = false ∧
    (reset_game sig file r).1.jump_buffered = false ∧
    (reset_game sig file r).1.debris = [] ∧
    (reset_game sig file r).1.player_y = (GROUND_Y : ℚ) - (PLAYER_HEIGHT : ℚ) ∧
    (reset_game sig file r).1.obstacles.length = INITIAL_OBSTACLE_COUNT + 1 ∧
    ∀ o ∈ (reset_game sig file r).1.obstacles,
      o.scored = false ∧ (PLAYER_X : ℚ) + (PLAYER_WIDTH : ℚ) < o.x := by
  obtain ⟨-, -, -, hx, hwid, hscored⟩ :=
    generate_obstacle_initial_spec none true (BASE_SCROLL_SPEED : ℚ) r
      (Or.inl rfl)
  have hx900 : (PLAYER_X : ℚ) + (PLAYER_WIDTH : ℚ) <
      (generate_obstacle none true (BASE_SCROLL_SPEED : ℚ) r).1.x := by
    refine lt_of_lt_of_le ?_ hx
    norm_num [PLAYER_X, PLAYER_WIDTH, SCREEN_WIDTH, INITIAL_OBSTACLE_OFFSET_MIN]
  have hwid0 : (0 : ℚ) ≤
      (generate_obstacle none true (BASE_SCROLL_SPEED : ℚ) r).1.width := by
    refine le_trans ?_ hwid
    norm_num [MIN_OBSTACLE_WIDTH]
  refine ⟨rfl, rfl, rfl, rfl, rfl, rfl, rfl, rfl, rfl, ?_, ?_⟩
  · show ((generate_obstacle none true (BASE_SCROLL_SPEED : ℚ) r).1 ::
      (chainFrom (generate_obstacle none true (BASE_SCROLL_SPEED : ℚ) r).1
        (BASE_SCROLL_SPEED : ℚ) INITIAL_OBSTACLE_COUNT
        (generate_obstacle none true (BASE_SCROLL_SPEED : ℚ) r).2).1).length =
      INITIAL_OBSTACLE_COUNT + 1
    rw [List.length_cons, chainFrom_length]
  · intro o ho
    have ho2 : o ∈ (generate_obstacle none true (BASE_SCROLL_SPEED : ℚ) r).1 ::
        (chainFrom (generate_obstacle none true (BASE_SCROLL_SPEED : ℚ) r).1
          (BASE_SCROLL_SPEED : ℚ) INITIAL_OBSTACLE_COUNT
          (generate_obstacle none true (BASE_SCROLL_SPEED : ℚ) r).2).1 := ho
    rcases List.mem_cons.mp ho2 with rfl | hmem
    · exact ⟨hscored, hx900⟩
    · obtain ⟨hsc, hle⟩ := chainFrom_mem (BASE_SCROLL_SPEED : ℚ)
        INITIAL_OBSTACLE_COUNT _ _ hwid0 o hmem
      exact ⟨hsc, lt_of_lt_of_le hx900 hle⟩

/-- C2 witness: the amended statement at concrete inputs. -/
theorem reset_game_amended_witness :
    (reset_game (σ := ℤ) id none rngZero).1.score = 0 ∧
    (reset_game (σ := ℤ) id none rngZero).1.has_jumped = false ∧
    (reset_game (σ := ℤ) id none rngZero).1.obstacles.length =
      INITIAL_OBSTACLE_COUNT + 1 := by
  obtain ⟨-, -, -, h4, h5, -, -, -, -, h10, -⟩ :=
    reset_game_amended (σ := ℤ) id none rngZero
  exact ⟨h5, h4, h10⟩

/-! ### Phase lemmas for the tick -/

theorem groundPhase_skip (gd : GenDebris) (s : GameState) (r : RNG)
    (h : ¬ (s.player_y ≥ (GROUND_Y : ℚ) - (PLAYER_HEIGHT : ℚ))) :
    groundPhase gd s r = (s, false, r) := by
  unfold groundPhase
  rw [if_neg h]

theorem groundPhase_clamp (gd : GenDebris) (s : GameState) (r : RNG)
    (h : s.player_y ≥ (GROUND_Y : ℚ) - (PLAYER_HEIGHT : ℚ)) :
    (groundPhase gd s r).2.1 = true ∧
    (groundPhase gd s r).1.player_velocity_y = 0 ∧
    (groundPhase gd s r).1.is_jumping = false ∧
    (groundPhase gd s r).1.player_y = (GROUND_Y : ℚ) - (PLAYER_HEIGHT : ℚ) := by
  simp only [groundPhase]
  rw [if_pos h]
  split_ifs <;> exact ⟨rfl, rfl, rfl, rfl⟩

theorem groundPhase_preserved (gd : GenDebris) (s : GameState) (r : RNG) :
    (groundPhase gd s r).1.jump_buffered = s.jump_buffered ∧
    (groundPhase gd s r).1.score = s.score ∧
    (groundPhase gd s r).1.obstacles = s.obstacles ∧
    (groundPhase gd s r).1.has_jumped = s.has_jumped ∧
    (groundPhase gd s r).1.jump_held = s.jump_held := by
  simp only [groundPhase]
  split_ifs <;> exact ⟨rfl, rfl, rfl, rfl, rfl⟩

theorem groundPhase_game_over_clamp (gd : GenDebris) (s : GameState) (r : RNG)
    (halive : s.game_over = false)
    (h : s.player_y ≥ (GROUND_Y : ℚ) - (PLAYER_HEIGHT : ℚ)) :
    (groundPhase gd s r).1.game_over = s.has_jumped := by
  simp only [groundPhase]
  rw [if_pos h]
  cases hj : s.has_jumped
  · split_ifs <;> first | rfl | simp_all
  · split_ifs <;> first | rfl | simp_all

theorem obstaclePhase_true (p : ℚ) (s : GameState) :
    obstaclePhase p s true = (s, true) := by
  unfold obstaclePhase
  rw [if_neg]
  simp

theorem obstaclePhase_some (p : ℚ) (s : GameState)
    (hv : 0 ≤ s.player_velocity_y) (q : ℚ × List Obstacle × ℤ)
    (hl : landLoop (PLAYER_X : ℚ) s.player_y p s.score s.obstacles = some q) :
    obstaclePhase p s false =
      ({ s with
          player_y := q.1, player_velocity_y := 0, is_jumping := false,
          obstacles := q.2.1, score := q.2.2 },
        true) := by
  unfold obstaclePhase
  rw [if_pos ⟨rfl, hv⟩, hl]

theorem obstaclePhase_none (p : ℚ) (s : GameState)
    (hv : 0 ≤ s.player_velocity_y)
    (hl : landLoop (PLAYER_X : ℚ) s.player_y p s.score s.obstacles = none) :
    obstaclePhase p s false = (s, false) := by
  unfold obstaclePhase
  rw [if_pos ⟨rfl, hv⟩, hl]

theorem obstaclePhase_neg (p : ℚ) (s : GameState)
    (hv : ¬ 0 ≤ s.player_velocity_y) :
    obstaclePhase p s false = (s, false) := by
  unfold obstaclePhase
  rw [if_neg]
  rintro ⟨-, hv2⟩
  exact hv hv2

theorem obstaclePhase_preserved (p : ℚ) (s : GameState) (b : Bool) :
    (obstaclePhase p s b).1.game_over = s.game_over ∧
    (obstaclePhase p s b).1.jump_buffered = s.jump_buffered ∧
    (obstaclePhase p s b).1.has_jumped = s.has_jumped ∧
    (obstaclePhase p s b).1.jump_held = s.jump_held := by
  unfold obstaclePhase
  split_ifs
  · rcases landLoop (PLAYER_X : ℚ) s.player_y p s.score s.obstacles with _ | q <;>
      exact ⟨rfl, rfl, rfl, rfl⟩
  · exact ⟨rfl, rfl, rfl, rfl⟩

theorem bufferPhase_buffered (s : GameState) (b : Bool) :
    (bufferPhase s b).jump_buffered = false := by
  unfold bufferPhase
  split_ifs with h1 h2
  · rfl
  · rfl
  · simpa using h1

theorem bufferPhase_consumed (s : GameState) (hb : s.jump_buffered = true) :
    bufferPhase s true =
      { s with player_velocity_y := (JUMP_STRENGTH : ℚ), is_jumping := true,
               jump_held := true, has_jumped := true, jump_buffered := false } := by
  unfold bufferPhase
  rw [if_pos hb, if_pos rfl]

theorem bufferPhase_dropped (s : GameState) (hb : s.jump_buffered = true) :
    bufferPhase s false = { s with jump_buffered := false } := by
  unfold bufferPhase
  rw [if_pos hb, if_neg (by simp)]

theorem bufferPhase_preserved (s : GameState) (b : Bool) :
    (bufferPhase s b).game_over = s.game_over ∧
    (bufferPhase s b).score = s.score ∧
    (bufferPhase s b).obstacles = s.obstacles := by
  unfold bufferPhase
  split_ifs <;> exact ⟨rfl, rfl, rfl⟩

theorem prunePhase_shape (s : GameState) :
    ∃ L, prunePhase s = { s with obstacles := L } ∧
      (L = s.obstacles ∨ L = s.obstacles.tail) := by
  rcases hL : s.obstacles with _ | ⟨o, rest⟩
  · refine ⟨[], ?_, Or.inl rfl⟩
    simp only [prunePhase, hL]
    rw [← hL]
  · simp only [prunePhase, hL]
    split_ifs with h
    · exact ⟨rest, rfl, Or.inr rfl⟩
    · refine ⟨o :: rest, ?_, Or.inl rfl⟩
      rw [← hL]

theorem spawnPhase_shape (sp : ℚ) (s : GameState) (r : RNG) :
    ∃ L, ∃ r2 : RNG, spawnPhase sp s r = ({ s with obstacles := L }, r2) ∧
      (L = s.obstacles ∨
       ∃ onew : Obstacle, onew.scored = false ∧ L = s.obstacles ++ [onew]) := by
  rcases hL : s.obstacles.getLast? with _ | o
  · exact ⟨s.obstacles, r, by simp only [spawnPhase, hL], Or.inl rfl⟩
  · simp only [spawnPhase, hL]
    split_ifs with h
    · exact ⟨s.obstacles ++ [(generate_obstacle (some o) false sp r).1],
        (generate_obstacle (some o) false sp r).2, rfl,
        Or.inr ⟨_, generate_obstacle_scored _ _ _ _, rfl⟩⟩
    · exact ⟨s.obstacles, r, rfl, Or.inl rfl⟩

theorem map_scroll_scored (sp : ℚ) (L : List Obstacle) :
    (L.map (fun o => { o with x := o.x - sp })).map Obstacle.scored =
      L.map Obstacle.scored := by
  induction L with
  | nil => rfl
  | cons a t ih =>
      simp only [List.map_cons]
      rw [ih]

/-- The tick equals the player phases with a reshaped obstacle list; the
reshaping (scroll, prune, spawn) preserves the scored flags of surviving
obstacles and appends at most one unscored obstacle. -/
theorem physicsTick_shape (gd : GenDebris) (s : GameState) (r : RNG) :
    ∃ L : List Obstacle, ∃ r2 : RNG,
      physicsTick gd s r = ({ playerPhases gd s r with obstacles := L }, r2) ∧
      (L.map Obstacle.scored = (playerPhases gd s r).obstacles.map Obstacle.scored ∨
       L.map Obstacle.scored =
         ((playerPhases gd s r).obstacles.map Obstacle.scored).tail ∨
       L.map Obstacle.scored =
         (playerPhases gd s r).obstacles.map Obstacle.scored ++ [false] ∨
       L.map Obstacle.scored =
         ((playerPhases gd s r).obstacles.map Obstacle.scored).tail ++ [false]) := by
  have e : physicsTick gd s r =
      spawnPhase (get_scroll_speed (playerPhases gd s r).score)
        (prunePhase (scrollPhase (get_scroll_speed (playerPhases gd s r).score)
          (playerPhases gd s r)))
        (groundPhase gd (integrate s) r).2.2 := rfl
  obtain ⟨L1, hp, hpor⟩ := prunePhase_shape
    (scrollPhase (get_scroll_speed (playerPhases gd s r).score) (playerPhases gd s r))
  obtain ⟨L2, r2, hs, hsor⟩ := spawnPhase_shape
    (get_scroll_speed (playerPhases gd s r).score)
    (prunePhase (scrollPhase (get_scroll_speed (playerPhases gd s r).score)
      (playerPhases gd s r)))
    (groundPhase gd (integrate s) r).2.2
  refine ⟨L2, r2, ?_, ?_⟩
  · rw [e, hs, hp]
    rfl
  · have hscroll_obs : (scrollPhase (get_scroll_speed (playerPhases gd s r).score)
        (playerPhases gd s r)).obstacles =
        (playerPhases gd s r).obstacles.map
          (fun o =>
            { o with x := o.x - get_scroll_speed (playerPhases gd s r).score }) := rfl
    have hL1 : L1.map Obstacle.scored =
        (playerPhases gd s r).obstacles.map Obstacle.scored ∨
        L1.map Obstacle.scored =
          ((playerPhases gd s r).obstacles.map Obstacle.scored).tail := by
      rcases hpor with h | h
      · left
        rw [h, hscroll_obs, map_scroll_scored]
      · right
        rw [h, hscroll_obs, List.map_tail, map_scroll_scored]
    have hprune_obs : (prunePhase (scrollPhase
        (get_scroll_speed (playerPhases gd s r).score) (playerPhases gd s r))).obstacles
        = L1 := by
      rw [hp]
    rcases hsor with h | ⟨onew, hnew, h⟩
    · rw [h, hprune_obs]
      rcases hL1 with h1 | h1
      · exact Or.inl h1
      · exact Or.inr (Or.inl h1)
    · rw [h, hprune_obs, List.map_append]
      rcases hL1 with h1 | h1
      · refine Or.inr (Or.inr (Or.inl ?_))
        rw [h1]
        simp [hnew]
      · refine Or.inr (Or.inr (Or.inr ?_))
        rw [h1]
        simp [hnew]

/-! ### C5: fatal ground clamp -/

/-- C5: on a tick entered alive, if the ground clamp triggers (the
integrated position reaches `GROUND_Y - PLAYER_HEIGHT` or below it on
screen) the run ends exactly when `has_jumped` was set; when the clamp does
not trigger the tick never sets `game_over`. -/
theorem ground_clamp_fatal_iff_has_jumped (gd : GenDebris) (s : GameState)
    (r : RNG) (halive : s.game_over = false) :
    (grounded s → (physicsTick gd s r).1.game_over = s.has_jumped) ∧
    (¬ grounded s → (physicsTick gd s r).1.game_over = false) := by
  obtain ⟨L, r2, heq, -⟩ := physicsTick_shape gd s r
  have hP : (physicsTick gd s r).1.game_over = (playerPhases gd s r).game_over := by
    rw [heq]
  have hchain : (playerPhases gd s r).game_over =
      (groundPhase gd (integrate s) r).1.game_over := by
    unfold playerPhases
    rw [(bufferPhase_preserved _ _).1, (obstaclePhase_preserved _ _ _).1]
  constructor
  · intro hg
    rw [hP, hchain, groundPhase_game_over_clamp gd (integrate s) r halive hg]
    rfl
  · intro hg
    rw [hP, hchain, groundPhase_skip gd (integrate s) r hg]
    exact halive

/-- C5 witness: a concrete grounded state with `has_jumped` set dies on the
tick. -/
theorem ground_clamp_fatal_iff_has_jumped_witness :
    (physicsTick gdZero stateHasJumped rngZero).1.game_over = true := by
  have h := (ground_clamp_fatal_iff_has_jumped gdZero stateHasJumped rngZero rfl).1
  have hg : grounded stateHasJumped := by
    show (310 : ℚ) + (0 + GRAVITY) ≥ (GROUND_Y : ℚ) - (PLAYER_HEIGHT : ℚ)
    norm_num [GRAVITY, GROUND_Y, SCREEN_HEIGHT, PLAYER_HEIGHT]
  exact (h hg).trans rfl

/-! ### C6: jump-buffer lifecycle -/

/-- C6: a jump press while airborne only sets the buffer (no impulse); the
buffer is always cleared by the end of the tick; when the player grounds
this tick (ground clamp or obstacle landing) the buffered jump is consumed
— the impulse is applied and the jump flags set; when no grounding occurs
the buffer is dropped without any impulse. -/
theorem jump_buffer_lifecycle (gd : GenDebris) (s : GameState) (r : RNG)
    (halive : s.game_over = false) :
    (s.is_jumping = true → handleJumpPress s = { s with jump_buffered := true }) ∧
    (physicsTick gd s r).1.jump_buffered = false ∧
    (s.jump_buffered = true → grounded s ∨ landed s →
      ((physicsTick gd s r).1.player_velocity_y = (JUMP_STRENGTH : ℚ) ∧
       (physicsTick gd s r).1.is_jumping = true ∧
       (physicsTick gd s r).1.jump_held = true ∧
       (physicsTick gd s r).1.has_jumped = true)) ∧
    (s.jump_buffered = true → ¬ grounded s → ¬ landed s →
      ((physicsTick gd s r).1.player_velocity_y = s.player_velocity_y + GRAVITY ∧
       (physicsTick gd s r).1.is_jumping = s.is_jumping)) := by
  obtain ⟨L, r2, heq, -⟩ := physicsTick_shape gd s r
  have hPv : (physicsTick gd s r).1.player_velocity_y =
      (playerPhases gd s r).player_velocity_y := by rw [heq]
  have hPj : (physicsTick gd s r).1.is_jumping =
      (playerPhases gd s r).is_jumping := by rw [heq]
  have hPh : (physicsTick gd s r).1.jump_held =
      (playerPhases gd s r).jump_held := by rw [heq]
  have hPhj : (physicsTick gd s r).1.has_jumped =
      (playerPhases gd s r).has_jumped := by rw [heq]
  have hPb : (physicsTick gd s r).1.jump_buffered =
      (playerPhases gd s r).jump_buffered := by rw [heq]
  refine ⟨?_, ?_, ?_, ?_⟩
  · intro hj
    unfold handleJumpPress
    rw [if_neg (by simp [halive]), if_pos hj]
  · rw [hPb]
    exact bufferPhase_buffered _ _
  · intro hb hcond
    by_cases hg : grounded s
    · obtain ⟨hsurf, -, -, -⟩ := groundPhase_clamp gd (integrate s) r hg
      have hO : obstaclePhase s.player_y (groundPhase gd (integrate s) r).1
          (groundPhase gd (integrate s) r).2.1 =
          ((groundPhase gd (integrate s) r).1, true) := by
        rw [hsurf]
        exact obstaclePhase_true _ _
      have hbuf : (groundPhase gd (integrate s) r).1.jump_buffered = true := by
        rw [(groundPhase_preserved gd (integrate s) r).1]
        exact hb
      have hPP : playerPhases gd s r =
          bufferPhase (groundPhase gd (integrate s) r).1 true := by
        simp only [playerPhases]
        rw [hO]
      rw [hPv, hPj, hPh, hPhj, hPP, bufferPhase_consumed _ hbuf]
      exact ⟨rfl, rfl, rfl, rfl⟩
    · have hl : landed s := hcond.resolve_left hg
      have hgskip := groundPhase_skip gd (integrate s) r hg
      obtain ⟨q, hq⟩ := Option.isSome_iff_exists.mp hl.2
      have hO : obstaclePhase s.player_y (groundPhase gd (integrate s) r).1
          (groundPhase gd (integrate s) r).2.1 =
          ({ integrate s with
              player_y := q.1, player_velocity_y := 0,
              is_jumping := false, obstacles := q.2.1, score := q.2.2 },
            true) := by
        rw [hgskip]
        exact obstaclePhase_some s.player_y (integrate s) hl.1 q hq
      have hbM : ({ integrate s with
          player_y := q.1, player_velocity_y := 0,
          is_jumping := false, obstacles := q.2.1, score := q.2.2 } :
          GameState).jump_buffered = true := hb
      have hPP : playerPhases gd s r =
          bufferPhase { integrate s with
            player_y := q.1, player_velocity_y := 0,
            is_jumping := false, obstacles := q.2.1, score := q.2.2 } true := by
        simp only [playerPhases]
        rw [hO]
      rw [hPv, hPj, hPh, hPhj, hPP, bufferPhase_consumed _ hbM]
      exact ⟨rfl, rfl, rfl, rfl⟩
  · intro hb hg hl
    have hgskip := groundPhase_skip gd (integrate s) r hg
    have hO : obstaclePhase s.player_y (groundPhase gd (integrate s) r).1
        (groundPhase gd (integrate s) r).2.1 = (integrate s, false) := by
      rw [hgskip]
      by_cases hv : 0 ≤ s.player_velocity_y + GRAVITY
      · have hnone : landLoop (PLAYER_X : ℚ) (integrate s).player_y s.player_y
            (integrate s).score (integrate s).obstacles = none := by
          by_contra hcon
          exact hl ⟨hv, Option.ne_none_iff_isSome.mp hcon⟩
        exact obstaclePhase_none _ _ hv hnone
      · exact obstaclePhase_neg _ _ hv
    have hPP : playerPhases gd s r = bufferPhase (integrate s) false := by
      simp only [playerPhases]
      rw [hO]
    rw [hPv, hPj, hPP, bufferPhase_dropped (integrate s) hb]
    exact ⟨rfl, rfl⟩

/-- C6 witness: a concrete airborne state with a buffered jump landing on a
platform this tick — the tick ends with the jump impulse applied and the
buffer cleared. -/
theorem jump_buffer_lifecycle_witness :
    (physicsTick gdZero stateBuffered rngZero).1.player_velocity_y =
      (JUMP_STRENGTH : ℚ) ∧
    (physicsTick gdZero stateBuffered rngZero).1.jump_buffered = false := by
  have h := jump_buffer_lifecycle gdZero stateBuffered rngZero rfl
  refine ⟨(h.2.2.1 rfl (Or.inr ?_)).1, h.2.1⟩
  constructor
  · show (0 : ℚ) ≤ stateBuffered.player_velocity_y + GRAVITY
    norm_num [stateBuffered, GRAVITY]
  · show (landLoop (PLAYER_X : ℚ)
      (stateBuffered.player_y + (stateBuffered.player_velocity_y + GRAVITY))
      stateBuffered.player_y stateBuffered.score stateBuffered.obstacles).isSome
    norm_num [stateBuffered, landLoop, check_obstacle_collision, GRAVITY,
      PLAYER_X, PLAYER_WIDTH, PLAYER_HEIGHT, LANDING_TOLERANCE]

/-! ### C8: scoring exactly once per obstacle -/

/-- The landing loop updates at most one obstacle, only by turning its
`scored` flag from false to true, and the score increments by one exactly
when such a flip happens; landing on an already-scored obstacle leaves both
the list and the score unchanged. -/
theorem landLoop_spec (px y py : ℚ) (sc : ℤ) :
    ∀ (L : List Obstacle) (p : ℚ × List Obstacle × ℤ),
      landLoop px y py sc L = some p →
      p.2.1.length = L.length ∧
      ((p.2.1 = L ∧ p.2.2 = sc) ∨
       ∃ i : Nat, ∃ hi : i < L.length, (L.get ⟨i, hi⟩).scored = false ∧
         p.2.1 = L.set i { L.get ⟨i, hi⟩ with scored := true } ∧ p.2.2 = sc + 1)
  | [], p, h => by simp [landLoop] at h
  | o :: rest, p, h => by
      simp only [landLoop] at h
      split_ifs at h with hc hsc
      · rw [Option.some.injEq] at h
        subst h
        exact ⟨rfl, Or.inl ⟨rfl, rfl⟩⟩
      · rw [Option.some.injEq] at h
        subst h
        refine ⟨rfl, Or.inr ⟨0, by simp, ?_, rfl, rfl⟩⟩
        simpa using hsc
      · rcases hrec : landLoop px y py sc rest with _ | q
        · rw [hrec] at h
          exact absurd h (by simp)
        · rw [hrec] at h
          rw [Option.some.injEq] at h
          subst h
          obtain ⟨hlen, hd⟩ := landLoop_spec px y py sc rest q hrec
          refine ⟨by simpa using hlen, ?_⟩
          rcases hd with ⟨h1, h2⟩ | ⟨i, hi, hsf, hset, hsc1⟩
          · exact Or.inl ⟨by rw [h1], h2⟩
          · refine Or.inr ⟨i + 1, by simpa using Nat.succ_lt_succ hi, ?_, ?_, hsc1⟩
            · simpa using hsf
            · rw [List.set_cons_succ, hset]
              rfl

/-- The player phases of a tick either leave the obstacle list and score
unchanged, or flip exactly one unscored obstacle to scored and add one
point. -/
theorem playerPhases_score_obstacles (gd : GenDebris) (s : GameState) (r : RNG) :
    ((playerPhases gd s r).obstacles = s.obstacles ∧
     (playerPhases gd s r).score = s.score) ∨
    (∃ i : Nat, ∃ hi : i < s.obstacles.length,
      (s.obstacles.get ⟨i, hi⟩).scored = false ∧
      (playerPhases gd s r).obstacles =
        s.obstacles.set i { s.obstacles.get ⟨i, hi⟩ with scored := true } ∧
      (playerPhases gd s r).score = s.score + 1) := by
  have hg_obs : (groundPhase gd (integrate s) r).1.obstacles = s.obstacles :=
    (groundPhase_preserved _ _ _).2.2.1
  have hg_score : (groundPhase gd (integrate s) r).1.score = s.score :=
    (groundPhase_preserved _ _ _).2.1
  simp only [playerPhases]
  cases hsurf : (groundPhase gd (integrate s) r).2.1
  · by_cases hv : 0 ≤ (groundPhase gd (integrate s) r).1.player_velocity_y
    · rcases hll : landLoop (PLAYER_X : ℚ)
          (groundPhase gd (integrate s) r).1.player_y s.player_y
          (groundPhase gd (integrate s) r).1.score
          (groundPhase gd (integrate s) r).1.obstacles with _ | q
      · rw [obstaclePhase_none _ _ hv hll]
        left
        rw [(bufferPhase_preserved _ _).2.2, (bufferPhase_preserved _ _).2.1]
        exact ⟨hg_obs, hg_score⟩
      · rw [obstaclePhase_some _ _ hv q hll]
        obtain ⟨hlen, hd⟩ := landLoop_spec _ _ _ _ _ q hll
        rw [hg_obs, hg_score] at hd
        rcases hd with ⟨h1, h2⟩ | ⟨i, hi, hsf, hset, hsc1⟩
        · left
          rw [(bufferPhase_preserved _ _).2.2, (bufferPhase_preserved _ _).2.1]
          exact ⟨h1, h2⟩
        · right
          refine ⟨i, hi, hsf, ?_, ?_⟩
          · rw [(bufferPhase_preserved _ _).2.2]
            exact hset
          · rw [(bufferPhase_preserved _ _).2.1]
            exact hsc1
    · rw [obstaclePhase_neg _ _ hv]
      left
      rw [(bufferPhase_preserved _ _).2.2, (bufferPhase_preserved _ _).2.1]
      exact ⟨hg_obs, hg_score⟩
  · rw [obstaclePhase_true]
    left
    rw [(bufferPhase_preserved _ _).2.2, (bufferPhase_preserved _ _).2.1]
    exact ⟨hg_obs, hg_score⟩

/-- C8: the landing loop flips an obstacle's `scored` flag only from false
to true and at most once per landing, awarding exactly one point on the
flip and nothing on repeat landings; over a whole tick the score grows by
at most one, and the obstacle list's scored flags evolve only by that
single flip plus pruning the front obstacle and appending a fresh unscored
one — never true to false. -/
theorem scoring_once_per_obstacle (gd : GenDebris) (s : GameState) (r : RNG) :
    (∀ (px y py : ℚ) (sc : ℤ) (L : List Obstacle) (p : ℚ × List Obstacle × ℤ),
      landLoop px y py sc L = some p →
      p.2.1.length = L.length ∧
      ((p.2.1 = L ∧ p.2.2 = sc) ∨
       ∃ i : Nat, ∃ hi : i < L.length, (L.get ⟨i, hi⟩).scored = false ∧
         p.2.1 = L.set i { L.get ⟨i, hi⟩ with scored := true } ∧
         p.2.2 = sc + 1)) ∧
    ((physicsTick gd s r).1.score = s.score ∨
     (physicsTick gd s r).1.score = s.score + 1) ∧
    (∃ F1 : List Bool,
      ((F1 = s.obstacles.map Obstacle.scored ∧
        (physicsTick gd s r).1.score = s.score) ∨
       (∃ i : Nat, ∃ hi : i < s.obstacles.length,
         (s.obstacles.get ⟨i, hi⟩).scored = false ∧
         F1 = (s.obstacles.map Obstacle.scored).set i true ∧
         (physicsTick gd s r).1.score = s.score + 1)) ∧
      ((physicsTick gd s r).1.obstacles.map Obstacle.scored = F1 ∨
       (physicsTick gd s r).1.obstacles.map Obstacle.scored = F1.tail ∨
       (physicsTick gd s r).1.obstacles.map Obstacle.scored = F1 ++ [false] ∨
       (physicsTick gd s r).1.obstacles.map Obstacle.scored =
         F1.tail ++ [false])) := by
  obtain ⟨L2, r2, heq, hor⟩ := physicsTick_shape gd s r
  have hscore : (physicsTick gd s r).1.score = (playerPhases gd s r).score := by
    rw [heq]
  have hobs : (physicsTick gd s r).1.obstacles = L2 := by rw [heq]
  have hPP := playerPhases_score_obstacles gd s r
  refine ⟨fun px y py sc L p h => landLoop_spec px y py sc L p h, ?_, ?_⟩
  · rcases hPP with ⟨-, h2⟩ | ⟨i, hi, -, -, h2⟩
    · exact Or.inl (hscore.trans h2)
    · exact Or.inr (hscore.trans h2)
  · refine ⟨(playerPhases gd s r).obstacles.map Obstacle.scored, ?_, ?_⟩
    · rcases hPP with ⟨h1, h2⟩ | ⟨i, hi, hsf, hset, h2⟩
      · exact Or.inl ⟨by rw [h1], hscore.trans h2⟩
      · refine Or.inr ⟨i, hi, hsf, ?_, hscore.trans h2⟩
        rw [hset, List.map_set]
    · rw [hobs]
      exact hor

/-- C8 witness: the landing-loop characterization applied at a concrete
landing on an unscored obstacle — length preserved and the single-flip
disjunct holds. -/
theorem scoring_once_per_obstacle_witness :
    (((160 : ℚ), [(⟨100, 200, 80, 20, true⟩ : Obstacle)], (1 : ℤ))).2.1.length =
      ([(⟨100, 200, 80, 20, false⟩ : Obstacle)]).length := by
  have hll : landLoop 100 190 140 0 [(⟨100, 200, 80, 20, false⟩ : Obstacle)] =
      some (160, [(⟨100, 200, 80, 20, true⟩ : Obstacle)], 1) := by
    norm_num [landLoop, check_obstacle_collision, PLAYER_WIDTH, PLAYER_HEIGHT,
      LANDING_TOLERANCE]
  exact ((scoring_once_per_obstacle gdZero stateHasJumped rngZero).1
    100 190 140 0 _ _ hll).1

end Scroller
